import Mathlib

/-!
# Field-Kit v0.1 — verification of the event-sourced core

Shallow embedding of the Field-Kit repository's storage and workflow layer:

* `src/fieldkit/schemas.py`   — data objects (`QDPIEvent`, `Item`, `Bond`, `Episode`,
  `Network`, provenance variants, `CANONICAL_EVENT_NAMES`);
* `src/fieldkit/store_jsonl.py` — the JSONL store (`Store`): append-only event log with
  per-episode sequence numbers, latest-write-wins snapshot streams, derived credit balance;
* `src/fieldkit/qdpi.py`      — the `EventLogger` (validation of event names, event
  construction, convenience constructors);
* `src/cli.py`                — the workflow commands (`cmd_bond_run`, `cmd_holologue_run`,
  `cmd_item_archive`, curation commands) of `FieldKitCLI`.

Modelling conventions: ids (Python prefixed-UUID strings) are `Nat`, drawn from a
freshness counter; JSON dict `refs` are a record of `Option` fields, an absent key being
`none`; timestamps, actors and `schema_version` fields are omitted — no verified claim
inspects them; Python exceptions / `sys.exit` are `Except` errors.  The in-memory state
of a `Store` object is the pair of the on-disk streams and the `_seq_cache` dict; a
process restart is modelled by clearing the cache.
-/

namespace FieldKit

/-- `CANONICAL_EVENT_NAMES` from `schemas.py` (the closed event-name enumeration). -/
def CANONICAL_EVENT_NAMES : List String :=
  [ "app.first_run.started"
  , "episode.created"
  , "field.opened"
  , "tutorial.started"
  , "item.created"
  , "bond.suggestions.presented"
  , "bond.draft_created"
  , "bond.run_requested"
  , "bond.executed"
  , "bond.execution_failed"
  , "holologue.run_requested"
  , "holologue.validation_failed"
  , "holologue.completed"
  , "holologue.failed"
  , "bond.proposals.presented"
  , "ledger.opened"
  , "store.commit"
  , "store.commit_failed"
  , "credits.delta" ]

/-- The `refs` dict of an event: optional keys, an absent key is `none`.
Only the keys actually written by `qdpi.py` event constructors are modelled. -/
structure Refs where
  delta : Option Int := none
  balance_after : Option Int := none
  reason : Option String := none
  item_id : Option Nat := none
  bond_id : Option Nat := none
  output_item_id : Option Nat := none
  event_id : Option Nat := none
  selected_item_ids : Option (List Nat) := none
  artifact_kind : Option String := none
  input_item_ids : Option (List Nat) := none
  prompt_text : Option String := none
  origin : Option String := none
  episode_id : Option Nat := none
  title : Option String := none
  ordinal : Option Int := none
  execution_count : Option Int := none
  item_type : Option String := none
  deriving Repr, DecidableEq

/-- `QDPIEvent` from `schemas.py` (ts / actor / is_debug / schema_version omitted:
no claim inspects them). -/
structure QDPIEvent where
  id : Nat
  network_id : Nat
  episode_id : Nat
  seq : Nat
  qdpi : String
  direction : String
  name : String
  refs : Refs
  deriving Repr, DecidableEq

/-- Item provenance: the tagged variant from `schemas.py`
(`ItemProvenanceUser` / `ItemProvenanceBond` / `ItemProvenanceHolologue`). -/
inductive Provenance where
  | user (created_by : String)
  | bond (bond_id : Nat) (input_item_ids : List Nat)
  | holologue (holologue_event_id : Nat) (selected_item_ids : List Nat)
      (artifact_kind : String)
  deriving Repr, DecidableEq

/-- `Item` from `schemas.py` (position / actor / timestamps modelled away;
`archived_at` kept as an optional marker since `cmd_item_archive` reads and sets it). -/
structure ItemRec where
  id : Nat
  network_id : Nat
  episode_id : Nat
  scope : String
  type : String
  title : String
  body : Option String := none
  provenance : Provenance
  archived_at : Option Nat := none
  deriving Repr, DecidableEq

/-- `ErrorInfo` from `schemas.py` (its `at` wall-clock timestamp is modelled away,
like every other timestamp). -/
structure ErrorInfo where
  message : String
  code : Option String := none
  deriving Repr, DecidableEq

/-- `Bond` from `schemas.py`. -/
structure BondRec where
  id : Nat
  network_id : Nat
  episode_id : Nat
  scope : String
  input_item_ids : List Nat
  prompt_text : String
  status : String
  output_item_id : Option Nat := none
  intent_type : Option String := none
  execution_count : Option Int := none
  last_error : Option ErrorInfo := none
  archived_at : Option Nat := none
  deriving Repr, DecidableEq

/-- `Episode` from `schemas.py`. -/
structure EpisodeRec where
  id : Nat
  network_id : Nat
  scope : String
  title : String
  status : String
  ordinal : Option Int := none
  curated_item_ids : Option (List Nat) := none
  curated_bond_ids : Option (List Nat) := none
  deriving Repr, DecidableEq

/-- `Network` from `schemas.py`. -/
structure NetworkRec where
  id : Nat
  scope : String
  title : String
  root_episode_id : Nat
  active_episode_id : Option Nat := none
  archived_at : Option Nat := none
  deriving Repr, DecidableEq

/-! ## Generic latest-by-id machinery (`Store._load_latest_by_id`)

Python builds a dict keyed by `record["id"]` while iterating the stream in append
order: an existing key keeps its position and gets the newer value, a new key is
appended at the end.  `insertAssoc` reproduces exactly that dict-assignment. -/

/-- Python dict assignment `m[k] = v` on an association list: replace in place,
else append at the end. -/
def insertAssoc {R : Type} (m : List (Nat × R)) (k : Nat) (v : R) : List (Nat × R) :=
  match m with
  | [] => [(k, v)]
  | (k', v') :: rest =>
    if k' = k then (k, v) :: rest else (k', v') :: insertAssoc rest k v

/-- `Store._load_latest_by_id`: fold the stream into a dict keyed by id. -/
def loadLatestById {R : Type} (getId : R → Nat) (rs : List R) : List (Nat × R) :=
  rs.foldl (fun m r => insertAssoc m (getId r) r) []

/-- `dict.get(id)` on the latest-by-id dict (used by `Store.get_item` / `get_bond` /
`get_episode` / `get_network`). -/
def getLatest {R : Type} (getId : R → Nat) (rs : List R) (i : Nat) : Option R :=
  (loadLatestById getId rs).lookup i

/-- `dict.values()` on the latest-by-id dict (used by `Store.load_*`). -/
def latestValues {R : Type} (getId : R → Nat) (rs : List R) : List R :=
  (loadLatestById getId rs).map Prod.snd

/-- A snapshot filter: `Store._apply_filters` does exact-match equality per key of the
filter dict.  The repository only ever filters on the `network_id` and `episode_id`
top-level fields; a `none` constraint is an absent key. -/
structure Filter where
  network_id : Option Nat := none
  episode_id : Option Nat := none
  deriving Repr, DecidableEq

/-- Whether a record matches a filter.  The record's two filterable fields are
projected as `Option` values: `record.get(key)` yields `None` when the dict has no
such key, and `None` never equals an id, so an absent field fails a present
constraint. -/
def matchesFilter (f : Filter) (nid eid : Option Nat) : Bool :=
  (match f.network_id with | none => true | some v => nid == some v) &&
  (match f.episode_id with | none => true | some v => eid == some v)

/-- `Store._apply_filters` over a list of records. -/
def applyFilters {R : Type} (proj : R → Option Nat × Option Nat) (f : Filter)
    (rs : List R) : List R :=
  rs.filter (fun r => matchesFilter f (proj r).1 (proj r).2)

/-! ## The Store (`store_jsonl.py`) -/

/-- The observable state of `Store`: the five JSONL streams (lists of records in
append order) plus the in-memory `_seq_cache` dict (`episode_id -> next seq`),
modelled as an association list where the most recent binding is first. -/
structure Store where
  items : List ItemRec := []
  bonds : List BondRec := []
  episodes : List EpisodeRec := []
  networks : List NetworkRec := []
  events : List QDPIEvent := []
  seqCache : List (Nat × Nat) := []
  deriving Repr, DecidableEq

/-- A fresh store over an empty data directory. -/
def Store.empty : Store := {}

/-- A process restart: the JSONL files survive, the in-memory `_seq_cache` of the
new `Store` instance starts empty. -/
def Store.restart (st : Store) : Store := { st with seqCache := [] }

/-- The sort key of `Store.load_events`: Python sorts by the tuple
`(episode_id, seq)` ascending. -/
def evLe (a b : QDPIEvent) : Prop :=
  a.episode_id < b.episode_id ∨ (a.episode_id = b.episode_id ∧ a.seq ≤ b.seq)

instance : DecidableRel evLe := fun a b => by
  unfold evLe; infer_instance

/-- `Store.load_events`: read the stream, optionally filter by episode, sort by
`(episode_id, seq)`.  Python's `list.sort` is stable; on the states this development
reaches, the filtered list is already sorted, where every stable sort is the
identity, so insertion sort is an exact model. -/
def Store.loadEvents (st : Store) (episode_id : Option Nat) : List QDPIEvent :=
  let evs := match episode_id with
    | some e => st.events.filter (fun x => x.episode_id == e)
    | none => st.events
  List.insertionSort evLe evs

/-- `Store._get_next_seq`: cache lookup first, else scan the loaded events for
`max(seq) + 1`, or `1` when the episode has no events; primes the cache. -/
def Store.getNextSeq (st : Store) (episode_id : Nat) : Nat × Store :=
  match st.seqCache.lookup episode_id with
  | some n => (n, st)
  | none =>
    let evs := st.loadEvents (some episode_id)
    match evs with
    | [] => (1, { st with seqCache := (episode_id, 1) :: st.seqCache })
    | _ =>
      let m := (evs.map (·.seq)).foldl Nat.max 0
      (m + 1, { st with seqCache := (episode_id, m + 1) :: st.seqCache })

/-- `Store.append_event`: recompute the expected seq, overwrite the event's seq
with it, append the record, then advance the cached counter. -/
def Store.appendEvent (st : Store) (ev : QDPIEvent) : Store :=
  let (expected, st1) := st.getNextSeq ev.episode_id
  let ev' := { ev with seq := expected }
  { st1 with
    events := st1.events ++ [ev']
    seqCache := (ev.episode_id, expected + 1) :: st1.seqCache }

/-- `Store.upsert_item`. -/
def Store.upsertItem (st : Store) (it : ItemRec) : Store :=
  { st with items := st.items ++ [it] }

/-- `Store.upsert_bond`. -/
def Store.upsertBond (st : Store) (b : BondRec) : Store :=
  { st with bonds := st.bonds ++ [b] }

/-- `Store.upsert_episode`. -/
def Store.upsertEpisode (st : Store) (e : EpisodeRec) : Store :=
  { st with episodes := st.episodes ++ [e] }

/-- `Store.upsert_network`. -/
def Store.upsertNetwork (st : Store) (n : NetworkRec) : Store :=
  { st with networks := st.networks ++ [n] }

/-- `Store.get_item`. -/
def Store.getItem (st : Store) (i : Nat) : Option ItemRec :=
  getLatest (·.id) st.items i

/-- `Store.get_bond`. -/
def Store.getBond (st : Store) (i : Nat) : Option BondRec :=
  getLatest (·.id) st.bonds i

/-- `Store.get_episode`. -/
def Store.getEpisode (st : Store) (i : Nat) : Option EpisodeRec :=
  getLatest (·.id) st.episodes i

/-- `Store.get_network`. -/
def Store.getNetwork (st : Store) (i : Nat) : Option NetworkRec :=
  getLatest (·.id) st.networks i

/-- `Store.load_items`. -/
def Store.loadItems (st : Store) (f : Filter) : List ItemRec :=
  applyFilters (fun r => (some r.network_id, some r.episode_id)) f
    (latestValues (·.id) st.items)

/-- `Store.load_bonds`. -/
def Store.loadBonds (st : Store) (f : Filter) : List BondRec :=
  applyFilters (fun r => (some r.network_id, some r.episode_id)) f
    (latestValues (·.id) st.bonds)

/-- `Store.load_episodes` (an episode dict has no `episode_id` key, so that
projection is `none`). -/
def Store.loadEpisodes (st : Store) (f : Filter) : List EpisodeRec :=
  applyFilters (fun r => (some r.network_id, none)) f (latestValues (·.id) st.episodes)

/-- `Store.load_networks` (networks have no episode field; the repo never filters
them, so the filter argument is always empty). -/
def Store.loadNetworks (st : Store) : List NetworkRec :=
  latestValues (·.id) st.networks

/-- `Store.is_initialized`. -/
def Store.isInitialized (st : Store) : Bool :=
  st.loadNetworks.length > 0

/-- `Store.compute_credits_balance`: pick out the `credits.delta` events of the
loaded (episode-filtered, seq-sorted) log and return the `balance_after` of the
last one, `0` when there is none (`refs.get("balance_after", 0)` defaults to 0). -/
def Store.computeCreditsBalance (st : Store) (episode_id : Option Nat) : Int :=
  let evs := st.loadEvents episode_id
  let credits := evs.filter (fun e => e.name == "credits.delta")
  match credits.getLast? with
  | none => 0
  | some e => e.refs.balance_after.getD 0

/-! ## The event logger (`qdpi.py`)

Python exceptions and `sys.exit(1)` become explicit error values; every operation
threads the observable state (`Store` plus the id-freshness counter) so that
mutations already performed when an exception propagates stay visible. -/

/-- Errors the modelled code can raise: `ValueError` (bad event name),
`TypeError` (unexpected keyword argument), `NameError` (unresolved name),
`sys.exit(1)`. -/
inductive PyError where
  | valueError (msg : String)
  | typeError (msg : String)
  | nameError (nm : String)
  | exit
  deriving Repr, DecidableEq

/-- `EventLogger.log_event` (via `_create_event`): validate the name against the
canonical enumeration *before* requesting a sequence number; on success build the
event with a fresh id and the previewed seq and append it to the store.  Returns
the result together with the (possibly unchanged) store and freshness counter. -/
def logEvent (st : Store) (fresh : Nat) (network_id episode_id : Nat)
    (name qdpi direction : String) (refs : Refs) :
    Except PyError QDPIEvent × Store × Nat :=
  if CANONICAL_EVENT_NAMES.contains name then
    let (seq, st1) := st.getNextSeq episode_id
    let ev : QDPIEvent :=
      { id := fresh, network_id := network_id, episode_id := episode_id,
        seq := seq, qdpi := qdpi, direction := direction, name := name, refs := refs }
    (.ok ev, st1.appendEvent ev, fresh + 1)
  else
    (.error (.valueError name), st, fresh)

/-- `EventLogger.bond_run_requested`. -/
def bondRunRequested (st : Store) (fresh : Nat) (nid eid bond_id : Nat) :
    Except PyError QDPIEvent × Store × Nat :=
  logEvent st fresh nid eid "bond.run_requested" "Q" "user→field"
    { bond_id := some bond_id }

/-- `EventLogger.bond_executed`. -/
def bondExecuted (st : Store) (fresh : Nat) (nid eid bond_id : Nat)
    (input_item_ids : List Nat) (output_item_id : Nat) (execution_count : Int) :
    Except PyError QDPIEvent × Store × Nat :=
  logEvent st fresh nid eid "bond.executed" "M" "system→field"
    { bond_id := some bond_id, input_item_ids := some input_item_ids,
      output_item_id := some output_item_id, execution_count := some execution_count }

/-- `EventLogger.bond_execution_failed`. -/
def bondExecutionFailed (st : Store) (fresh : Nat) (nid eid bond_id : Nat)
    (reason : String) : Except PyError QDPIEvent × Store × Nat :=
  logEvent st fresh nid eid "bond.execution_failed" "M" "system→field"
    { bond_id := some bond_id, reason := some reason }

/-- `EventLogger.holologue_run_requested` (the CLI never passes
`artifact_target_text`, so that optional key is absent). -/
def holologueRunRequested (st : Store) (fresh : Nat) (nid eid : Nat)
    (selected_item_ids : List Nat) (artifact_kind : String) :
    Except PyError QDPIEvent × Store × Nat :=
  logEvent st fresh nid eid "holologue.run_requested" "H" "user→field"
    { selected_item_ids := some selected_item_ids, artifact_kind := some artifact_kind }

/-- `EventLogger.holologue_validation_failed`. -/
def holologueValidationFailed (st : Store) (fresh : Nat) (nid eid : Nat)
    (reason : String) : Except PyError QDPIEvent × Store × Nat :=
  logEvent st fresh nid eid "holologue.validation_failed" "H" "user→field"
    { reason := some reason }

/-- `EventLogger.holologue_completed`. -/
def holologueCompleted (st : Store) (fresh : Nat) (nid eid : Nat)
    (selected_item_ids : List Nat) (output_item_id : Nat) (artifact_kind : String) :
    Except PyError QDPIEvent × Store × Nat :=
  logEvent st fresh nid eid "holologue.completed" "H" "system→field"
    { selected_item_ids := some selected_item_ids,
      output_item_id := some output_item_id, artifact_kind := some artifact_kind }

/-- `EventLogger.holologue_failed`. -/
def holologueFailed (st : Store) (fresh : Nat) (nid eid : Nat) (reason : String) :
    Except PyError QDPIEvent × Store × Nat :=
  logEvent st fresh nid eid "holologue.failed" "H" "system→field"
    { reason := some reason }

/-- `EventLogger.bond_proposals_presented` (the `source`/`suggestions` refs carry
opaque suggestion payloads no claim inspects; modelled as the empty refs dict). -/
def bondProposalsPresented (st : Store) (fresh : Nat) (nid eid : Nat)
    (source_output_item_id : Nat) : Except PyError QDPIEvent × Store × Nat :=
  logEvent st fresh nid eid "bond.proposals.presented" "Q" "system→field"
    { output_item_id := some source_output_item_id }

/-- `EventLogger.store_commit` — its Python signature accepts exactly the
positional/keyword parameters `network_id` and `episode_id` (besides `self`). -/
def storeCommit (st : Store) (fresh : Nat) (nid eid : Nat) :
    Except PyError QDPIEvent × Store × Nat :=
  logEvent st fresh nid eid "store.commit" "Q" "system→field" {}

/-- The named parameters of `EventLogger.store_commit` (besides `self`),
read off its `def` line in `qdpi.py`. -/
def storeCommitParams : List String := ["network_id", "episode_id"]

/-- `EventLogger.credits_delta`: refs always carry `delta`, `balance_after`,
`reason`; each optional id is present exactly when the (truthy) argument is. -/
def creditsDelta (st : Store) (fresh : Nat) (nid eid : Nat) (delta balance_after : Int)
    (reason : String) (item_id bond_id output_item_id event_id : Option Nat) :
    Except PyError QDPIEvent × Store × Nat :=
  logEvent st fresh nid eid "credits.delta" "Q" "system→field"
    { delta := some delta, balance_after := some balance_after, reason := some reason,
      item_id := item_id, bond_id := bond_id,
      output_item_id := output_item_id, event_id := event_id }

/-! ## The CLI (`cli.py`)

`FieldKitCLI` holds the store, a running credits balance and the loaded
network/episode context.  A fresh CLI object starts with balance `0` and no
context; `_load_context` fills them from the store.  Commands return their
Python result (or the raised error) *together with* the state, because
mutations performed before an exception stay persisted. -/

/-- The observable state of a `FieldKitCLI` object plus the global id supply. -/
structure Sys where
  store : Store
  fresh : Nat := 0
  credits_balance : Int := 0
  network_id : Option Nat := none
  episode_id : Option Nat := none
  deriving Repr, DecidableEq

/-- `FieldKitCLI._load_context`: first network, last episode of that network,
derived credit balance. -/
def loadContext (sys : Sys) : Sys :=
  match sys.store.loadNetworks with
  | [] => sys
  | nw :: _ =>
    let sys1 := { sys with network_id := some nw.id }
    match (sys.store.loadEpisodes { network_id := some nw.id }).getLast? with
    | none => sys1
    | some ep =>
      { sys1 with
        episode_id := some ep.id
        credits_balance := sys.store.computeCreditsBalance (some ep.id) }

/-- `FieldKitCLI._log_credits`: bump the running balance, then log a
`credits.delta` event carrying the new balance. -/
def Sys.logCredits (sys : Sys) (nid eid : Nat) (delta : Int) (reason : String)
    (item_id bond_id output_item_id event_id : Option Nat) :
    Except PyError Unit × Sys :=
  let bal := sys.credits_balance + delta
  let (r, st, f) := creditsDelta sys.store sys.fresh nid eid delta bal reason
    item_id bond_id output_item_id event_id
  match r with
  | .error e => (.error e, { sys with credits_balance := bal, store := st, fresh := f })
  | .ok _ => (.ok (), { sys with credits_balance := bal, store := st, fresh := f })

/-- The output `Item` record built in `cmd_bond_run`'s success path. -/
def bondOutputItem (item_id nid eid : Nat) (output_type : String)
    (bond_id : Nat) (bd : BondRec) : ItemRec :=
  { id := item_id
    network_id := nid
    episode_id := eid
    scope := "private"
    type := output_type
    title := "Output from Bond " ++ toString bond_id
    body := some ("Generated content for prompt: " ++ bd.prompt_text)
    provenance := .bond bond_id bd.input_item_ids }

/-- The Bond snapshot update of `cmd_bond_run`'s success path: mark executed,
set the output item, bump `execution_count` (`(get("execution_count") or 0)+1`). -/
def bondExecutedUpdate (bd : BondRec) (output_item_id : Nat) : BondRec :=
  { bd with
    status := "executed"
    output_item_id := some output_item_id
    execution_count := some (bd.execution_count.getD 0 + 1) }

/-- The Bond snapshot update of `cmd_bond_run`'s failure path: only
`last_error` is set (status, output and count untouched). -/
def bondFailedUpdate (bd : BondRec) (fail_reason : String) : BondRec :=
  { bd with last_error := some ⟨fail_reason, some "FORCED_FAILURE"⟩ }

/-- The output `Item` record built in `cmd_holologue_run`'s success path; its
provenance carries the id of the already-appended `holologue.completed` event. -/
def holoOutputItem (item_id nid eid completed_event_id : Nat)
    (selected_item_ids : List Nat) (artifact_kind : String) : ItemRec :=
  { id := item_id
    network_id := nid
    episode_id := eid
    scope := "private"
    type := "H"
    title := "Holologue artifact (" ++ artifact_kind ++ ")"
    body := some ("Generated " ++ artifact_kind ++ " from " ++
      toString selected_item_ids.length ++ " items.")
    provenance := .holologue completed_event_id selected_item_ids artifact_kind }

/-- Body of `FieldKitCLI.cmd_bond_run` after `_require_init`, with the loaded
context ids made explicit. -/
def cmdBondRunCore (sys : Sys) (nid eid bond_id : Nat) (output_type : String)
    (force_fail : Bool) (fail_reason : String) : Except PyError (Option Nat) × Sys :=
  match sys.store.getBond bond_id with
  | none => (.error .exit, sys)
  | some bd =>
  if bd.status == "executed" then (.error .exit, sys)
  else
    let (r1, st1, f1) := bondRunRequested sys.store sys.fresh nid eid bond_id
    match r1 with
    | .error e => (.error e, { sys with store := st1, fresh := f1 })
    | .ok _ =>
    let sys1 : Sys := { sys with store := st1, fresh := f1 }
    let (r2, sys2) := sys1.logCredits nid eid (-10) "bond_run_spend"
      none (some bond_id) none none
    match r2 with
    | .error e => (.error e, sys2)
    | .ok _ =>
    if force_fail then
      let bd' : BondRec := bondFailedUpdate bd fail_reason
      let sys3 : Sys := { sys2 with store := sys2.store.upsertBond bd' }
      let (r3, st3, f3) := bondExecutionFailed sys3.store sys3.fresh nid eid
        bond_id fail_reason
      match r3 with
      | .error e => (.error e, { sys3 with store := st3, fresh := f3 })
      | .ok _ =>
      let sys4 : Sys := { sys3 with store := st3, fresh := f3 }
      let (r4, sys5) := sys4.logCredits nid eid 10 "bond_run_refund"
        none (some bond_id) none none
      match r4 with
      | .error e => (.error e, sys5)
      | .ok _ =>
      let (r5, st5, f5) := storeCommit sys5.store sys5.fresh nid eid
      match r5 with
      | .error e => (.error e, { sys5 with store := st5, fresh := f5 })
      | .ok _ => (.ok none, { sys5 with store := st5, fresh := f5 })
    else
      let output_item_id := sys2.fresh
      let sysA : Sys := { sys2 with fresh := sys2.fresh + 1 }
      let output_item : ItemRec :=
        bondOutputItem output_item_id nid eid output_type bond_id bd
      let sysB : Sys := { sysA with store := sysA.store.upsertItem output_item }
      let bd' : BondRec := bondExecutedUpdate bd output_item_id
      let sysC : Sys := { sysB with store := sysB.store.upsertBond bd' }
      let (r3, st3, f3) := bondExecuted sysC.store sysC.fresh nid eid bond_id
        bd.input_item_ids output_item_id (bd.execution_count.getD 0 + 1)
      match r3 with
      | .error e => (.error e, { sysC with store := st3, fresh := f3 })
      | .ok _ =>
      let sys4 : Sys := { sysC with store := st3, fresh := f3 }
      let (r4, sys5) := sys4.logCredits nid eid 3 "bond_executed_reward"
        none (some bond_id) (some output_item_id) none
      match r4 with
      | .error e => (.error e, sys5)
      | .ok _ =>
      let (r5, st5, f5) := storeCommit sys5.store sys5.fresh nid eid
      match r5 with
      | .error e => (.error e, { sys5 with store := st5, fresh := f5 })
      | .ok _ => (.ok (some output_item_id), { sys5 with store := st5, fresh := f5 })

/-- `FieldKitCLI.cmd_bond_run`: `_require_init` then the body.  (Were the loaded
context incomplete, Python would thread `None` ids into events; the verified
scenarios all have a loaded context, so that corner is collapsed to an exit.) -/
def cmdBondRun (sys0 : Sys) (bond_id : Nat) (output_type : String)
    (force_fail : Bool) (fail_reason : String) : Except PyError (Option Nat) × Sys :=
  if sys0.store.isInitialized then
    let sys := loadContext sys0
    match sys.network_id, sys.episode_id with
    | some nid, some eid =>
      cmdBondRunCore sys nid eid bond_id output_type force_fail fail_reason
    | _, _ => (.error .exit, sys)
  else (.error .exit, sys0)

/-- Body of `FieldKitCLI.cmd_holologue_run` after `_require_init`. -/
def cmdHolologueRunCore (sys : Sys) (nid eid : Nat) (selected_item_ids : List Nat)
    (artifact_kind : String) (force_fail : Bool) (fail_reason : String) :
    Except PyError (Option Nat) × Sys :=
  if selected_item_ids.length < 2 then
    let (r, st, f) := holologueValidationFailed sys.store sys.fresh nid eid
      "selection_too_small"
    match r with
    | .error e => (.error e, { sys with store := st, fresh := f })
    | .ok _ => (.error .exit, { sys with store := st, fresh := f })
  else
    match selected_item_ids.find? (fun i => (sys.store.getItem i).isNone) with
    | some _ =>
      let (r, st, f) := holologueValidationFailed sys.store sys.fresh nid eid
        "item_not_found"
      match r with
      | .error e => (.error e, { sys with store := st, fresh := f })
      | .ok _ => (.error .exit, { sys with store := st, fresh := f })
    | none =>
    let (r1, st1, f1) := holologueRunRequested sys.store sys.fresh nid eid
      selected_item_ids artifact_kind
    match r1 with
    | .error e => (.error e, { sys with store := st1, fresh := f1 })
    | .ok run_ev =>
    let sys1 : Sys := { sys with store := st1, fresh := f1 }
    let (r2, sys2) := sys1.logCredits nid eid (-20) "holologue_run_spend"
      none none none (some run_ev.id)
    match r2 with
    | .error e => (.error e, sys2)
    | .ok _ =>
    if force_fail then
      let (r3, st3, f3) := holologueFailed sys2.store sys2.fresh nid eid fail_reason
      match r3 with
      | .error e => (.error e, { sys2 with store := st3, fresh := f3 })
      | .ok _ =>
      let sys3 : Sys := { sys2 with store := st3, fresh := f3 }
      let (r4, sys4) := sys3.logCredits nid eid 20 "holologue_run_refund"
        none none none (some run_ev.id)
      match r4 with
      | .error e => (.error e, sys4)
      | .ok _ =>
      let (r5, st5, f5) := storeCommit sys4.store sys4.fresh nid eid
      match r5 with
      | .error e => (.error e, { sys4 with store := st5, fresh := f5 })
      | .ok _ => (.ok none, { sys4 with store := st5, fresh := f5 })
    else
      let output_item_id := sys2.fresh
      let sysA : Sys := { sys2 with fresh := sys2.fresh + 1 }
      let (r3, st3, f3) := holologueCompleted sysA.store sysA.fresh nid eid
        selected_item_ids output_item_id artifact_kind
      match r3 with
      | .error e => (.error e, { sysA with store := st3, fresh := f3 })
      | .ok completed_ev =>
      let sysB : Sys := { sysA with store := st3, fresh := f3 }
      let output_item : ItemRec :=
        holoOutputItem output_item_id nid eid completed_ev.id
          selected_item_ids artifact_kind
      let sysC : Sys := { sysB with store := sysB.store.upsertItem output_item }
      let (r4, sys4) := sysC.logCredits nid eid 5 "holologue_completed_reward"
        none none (some output_item_id) none
      match r4 with
      | .error e => (.error e, sys4)
      | .ok _ =>
      let (r5, st5, f5) := bondProposalsPresented sys4.store sys4.fresh nid eid
        output_item_id
      match r5 with
      | .error e => (.error e, { sys4 with store := st5, fresh := f5 })
      | .ok _ =>
      let sys5 : Sys := { sys4 with store := st5, fresh := f5 }
      let (r6, st6, f6) := storeCommit sys5.store sys5.fresh nid eid
      match r6 with
      | .error e => (.error e, { sys5 with store := st6, fresh := f6 })
      | .ok _ => (.ok (some output_item_id), { sys5 with store := st6, fresh := f6 })

/-- `FieldKitCLI.cmd_holologue_run`: `_require_init` then the body. -/
def cmdHolologueRun (sys0 : Sys) (selected_item_ids : List Nat)
    (artifact_kind : String) (force_fail : Bool) (fail_reason : String) :
    Except PyError (Option Nat) × Sys :=
  if sys0.store.isInitialized then
    let sys := loadContext sys0
    match sys.network_id, sys.episode_id with
    | some nid, some eid =>
      cmdHolologueRunCore sys nid eid selected_item_ids artifact_kind
        force_fail fail_reason
    | _, _ => (.error .exit, sys)
  else (.error .exit, sys0)

/-- Keyword arguments passed to `store_commit` at the call sites in
`cmd_item_archive` and `_save_episode_curation` (`refs={...}`). -/
def commitCallKwargs : List String := ["refs"]

/-- Body of `FieldKitCLI.cmd_item_archive` after `_require_init`.  The item is
re-upserted with the archive marker, then the closing `store_commit(...,
refs=...)` call is made — a keyword Python rejects against the `store_commit`
signature, so the checkpoint raises `TypeError` after the snapshot write. -/
def cmdItemArchiveCore (sys : Sys) (nid eid item_id : Nat) :
    Except PyError Unit × Sys :=
  match sys.store.getItem item_id with
  | none => (.error .exit, sys)
  | some it =>
  if it.archived_at.isSome then (.ok (), sys)
  else
    let it' : ItemRec := { it with archived_at := some 0 }
    let sys1 : Sys := { sys with store := sys.store.upsertItem it' }
    if commitCallKwargs.all (fun k => storeCommitParams.contains k) then
      let (r, st, f) := storeCommit sys1.store sys1.fresh nid eid
      match r with
      | .error e => (.error e, { sys1 with store := st, fresh := f })
      | .ok _ => (.ok (), { sys1 with store := st, fresh := f })
    else
      (.error (.typeError "store_commit got an unexpected keyword argument refs"), sys1)

/-- `FieldKitCLI.cmd_item_archive`: `_require_init` then the body. -/
def cmdItemArchive (sys0 : Sys) (item_id : Nat) : Except PyError Unit × Sys :=
  if sys0.store.isInitialized then
    let sys := loadContext sys0
    match sys.network_id, sys.episode_id with
    | some nid, some eid => cmdItemArchiveCore sys nid eid item_id
    | _, _ => (.error .exit, sys)
  else (.error .exit, sys0)

/-- `FieldKitCLI._save_episode_curation`: upsert the episode snapshot, then make
the `store_commit(..., refs=...)` call, which Python rejects with `TypeError`
because `store_commit` has no `refs` parameter. -/
def saveEpisodeCuration (sys : Sys) (nid eid : Nat) (episode : EpisodeRec) :
    Except PyError Unit × Sys :=
  let sys1 : Sys := { sys with store := sys.store.upsertEpisode episode }
  if commitCallKwargs.all (fun k => storeCommitParams.contains k) then
    let (r, st, f) := storeCommit sys1.store sys1.fresh nid eid
    match r with
    | .error e => (.error e, { sys1 with store := st, fresh := f })
    | .ok _ => (.ok (), { sys1 with store := st, fresh := f })
  else
    (.error (.typeError "store_commit got an unexpected keyword argument refs"), sys1)

/-! ## Name resolution (`fieldkit/__init__.py`, missing `dict_to_episode`) -/

/-- The module-level names `store_jsonl.py` actually defines. -/
def storeJsonlModuleNames : List String :=
  [ "_get_default_data_dir", "DEFAULT_DATA_DIR", "Store", "dict_to_item",
    "dict_to_bond", "get_store", "reset_store" ]

/-- The names `fieldkit/__init__.py` line 17 imports from `.store_jsonl`. -/
def fieldkitInitStoreJsonlImports : List String :=
  [ "Store", "get_store", "reset_store", "dict_to_item", "dict_to_bond",
    "dict_to_episode" ]

/-- The names `cli.py` lines 36–53 import from the `fieldkit` package. -/
def cliFieldkitImportNames : List String :=
  [ "Network", "Episode", "Item", "Bond", "Vec3", "ActorRef",
    "ItemProvenanceUser", "ItemProvenanceBond", "ItemProvenanceHolologue",
    "generate_network_id", "generate_episode_id", "generate_item_id",
    "generate_bond_id", "now_iso", "SYSTEM_ACTOR", "USER_ACTOR",
    "Store", "get_store", "reset_store", "dict_to_item", "dict_to_episode",
    "EventLogger", "get_logger",
    "generate_suggestions_for_item", "generate_proposals_for_holologue" ]

/-- Python `from module import a, b, ...`: fails (ImportError) at the first
requested name the module does not define. -/
def importFrom (defined requested : List String) : Except String Unit :=
  match requested.find? (fun n => !(defined.contains n)) with
  | some n => .error n
  | none => .ok ()

/-- `FieldKitCLI._get_episode_object` with the context episode id made explicit:
fetch the episode dict, then call the global name `dict_to_episode`.  `env` is
the set of resolvable global names; the call raises `NameError` when the name is
not among them. -/
def getEpisodeObjectCore (sys : Sys) (eid : Nat) (env : List String) :
    Except PyError EpisodeRec × Sys :=
  match sys.store.getEpisode eid with
  | none => (.error .exit, sys)
  | some ed =>
    if env.contains "dict_to_episode" then (.ok ed, sys)
    else (.error (.nameError "dict_to_episode"), sys)

/-- Body of `FieldKitCLI.cmd_curate_item_add` after `_require_init`. -/
def cmdCurateItemAddCore (sys : Sys) (nid eid item_id : Nat) (env : List String) :
    Except PyError Bool × Sys :=
  match sys.store.getItem item_id with
  | none => (.ok false, sys)
  | some it =>
  if it.network_id ≠ nid then (.ok false, sys)
  else if it.episode_id ≠ eid then (.ok false, sys)
  else
    match getEpisodeObjectCore sys eid env with
    | (.error e, sys') => (.error e, sys')
    | (.ok ep, sys') =>
      let cur := ep.curated_item_ids.getD []
      if item_id ∈ cur then (.ok false, sys')
      else
        let ep' : EpisodeRec := { ep with curated_item_ids := some (cur ++ [item_id]) }
        match saveEpisodeCuration sys' nid eid ep' with
        | (.error e, sys'') => (.error e, sys'')
        | (.ok _, sys'') => (.ok true, sys'')

/-- Body of `FieldKitCLI.cmd_curate_item_remove` after `_require_init`. -/
def cmdCurateItemRemoveCore (sys : Sys) (nid eid item_id : Nat) (env : List String) :
    Except PyError Bool × Sys :=
  match getEpisodeObjectCore sys eid env with
  | (.error e, sys') => (.error e, sys')
  | (.ok ep, sys') =>
    let cur := ep.curated_item_ids.getD []
    if item_id ∉ cur then (.ok false, sys')
    else
      let ep' : EpisodeRec :=
        { ep with curated_item_ids := some (cur.erase item_id) }
      match saveEpisodeCuration sys' nid eid ep' with
      | (.error e, sys'') => (.error e, sys'')
      | (.ok _, sys'') => (.ok true, sys'')

/-- Body of `FieldKitCLI.cmd_curate_bond_add` after `_require_init`. -/
def cmdCurateBondAddCore (sys : Sys) (nid eid bond_id : Nat) (env : List String) :
    Except PyError Bool × Sys :=
  match sys.store.getBond bond_id with
  | none => (.ok false, sys)
  | some b =>
  if b.network_id ≠ nid then (.ok false, sys)
  else if b.episode_id ≠ eid then (.ok false, sys)
  else
    match getEpisodeObjectCore sys eid env with
    | (.error e, sys') => (.error e, sys')
    | (.ok ep, sys') =>
      let cur := ep.curated_bond_ids.getD []
      if bond_id ∈ cur then (.ok false, sys')
      else
        let ep' : EpisodeRec := { ep with curated_bond_ids := some (cur ++ [bond_id]) }
        match saveEpisodeCuration sys' nid eid ep' with
        | (.error e, sys'') => (.error e, sys'')
        | (.ok _, sys'') => (.ok true, sys'')

/-- Body of `FieldKitCLI.cmd_curate_bond_remove` after `_require_init`. -/
def cmdCurateBondRemoveCore (sys : Sys) (nid eid bond_id : Nat) (env : List String) :
    Except PyError Bool × Sys :=
  match getEpisodeObjectCore sys eid env with
  | (.error e, sys') => (.error e, sys')
  | (.ok ep, sys') =>
    let cur := ep.curated_bond_ids.getD []
    if bond_id ∉ cur then (.ok false, sys')
    else
      let ep' : EpisodeRec :=
        { ep with curated_bond_ids := some (cur.erase bond_id) }
      match saveEpisodeCuration sys' nid eid ep' with
      | (.error e, sys'') => (.error e, sys'')
      | (.ok _, sys'') => (.ok true, sys'')

/-! ## A concrete scenario store

A small initialized workspace (one network, one episode, two user items, one
draft bond, a seed `credits.delta` and a `store.commit` already logged), used by
the evaluation witnesses. -/

def wNetwork : NetworkRec :=
  { id := 1
    scope := "private"
    title := "My Field"
    root_episode_id := 2
    active_episode_id := some 2 }

def wEpisode : EpisodeRec :=
  { id := 2
    network_id := 1
    scope := "private"
    title := "Session 0"
    status := "active"
    ordinal := some 0 }

def wItem3 : ItemRec :=
  { id := 3
    network_id := 1
    episode_id := 2
    scope := "private"
    type := "Q"
    title := "t3"
    provenance := .user "user" }

def wItem4 : ItemRec :=
  { id := 4
    network_id := 1
    episode_id := 2
    scope := "private"
    type := "Q"
    title := "t4"
    provenance := .user "user" }

def wBond5 : BondRec :=
  { id := 5
    network_id := 1
    episode_id := 2
    scope := "private"
    input_item_ids := [3]
    prompt_text := "p"
    status := "draft" }

def wSeed : QDPIEvent :=
  { id := 100
    network_id := 1
    episode_id := 2
    seq := 1
    qdpi := "Q"
    direction := "system→field"
    name := "credits.delta"
    refs := { delta := some 100, balance_after := some 100, reason := some "seed" } }

def wCommit : QDPIEvent :=
  { id := 101
    network_id := 1
    episode_id := 2
    seq := 2
    qdpi := "Q"
    direction := "system→field"
    name := "store.commit"
    refs := {} }

def wStore : Store :=
  { items := [wItem3, wItem4]
    bonds := [wBond5]
    episodes := [wEpisode]
    networks := [wNetwork]
    events := [wSeed, wCommit] }

def wSys : Sys := { store := wStore, fresh := 1000 }

/-- The bond id an Item provenance names, if any (the `bond_id` field of the
`bond` provenance variant in `schemas.py`). -/
def provenanceBondId : Provenance → Option Nat
  | .bond b _ => some b
  | _ => none

/-! ## The sequencing invariant

For every episode, the events of that episode sit in the log in append order
with `seq` exactly `1..N`, and any cached counter equals `N + 1`. -/

/-- The events of one episode, in log (append) order. -/
def epFilter (st : Store) (ep : Nat) : List QDPIEvent :=
  st.events.filter (fun e => e.episode_id == ep)

/-- Number of events of one episode. -/
def epCount (st : Store) (ep : Nat) : Nat := (epFilter st ep).length

/-- The store invariant: per-episode `seq`s are exactly `1..N` in append order,
and every `_seq_cache` entry equals `N + 1`. -/
def Inv (st : Store) : Prop :=
  ∀ ep : Nat,
    (epFilter st ep).map (·.seq) = List.range' 1 (epCount st ep)
    ∧ ∀ n, st.seqCache.lookup ep = some n → n = epCount st ep + 1

lemma epFilter_congr {st st' : Store} (h : st'.events = st.events) (ep : Nat) :
    epFilter st' ep = epFilter st ep := by
  unfold epFilter; rw [h]

lemma epCount_congr {st st' : Store} (h : st'.events = st.events) (ep : Nat) :
    epCount st' ep = epCount st ep := by
  unfold epCount; rw [epFilter_congr h]

lemma inv_empty : Inv Store.empty := by
  intro ep
  constructor
  · rfl
  · intro n hn; cases hn

lemma inv_restart {st : Store} (h : Inv st) : Inv st.restart := by
  intro ep
  refine ⟨(h ep).1, ?_⟩
  intro n hn; cases hn

/-- Python `max` over the seq column when the seqs are `1..n`. -/
lemma foldl_max_range' (n : Nat) : (List.range' 1 n).foldl Nat.max 0 = n := by
  induction n with
  | zero => rfl
  | succ k ih =>
    rw [List.range'_concat, List.foldl_append, ih]
    simp [Nat.max_def]
    omega

/-- Under the invariant, the per-episode slice of the log is already sorted by
`(episode_id, seq)`. -/
lemma sorted_epFilter (st : Store) (ep : Nat)
    (h : (epFilter st ep).map (·.seq) = List.range' 1 (epCount st ep)) :
    List.Sorted evLe (epFilter st ep) := by
  have hpl : (epFilter st ep).Pairwise (fun a b => a.seq < b.seq) := by
    have hr := List.pairwise_lt_range' 1 (epCount st ep)
    rw [← h] at hr
    exact List.pairwise_map.mp hr
  have hmem : ∀ a ∈ epFilter st ep, a.episode_id = ep := by
    intro a ha
    have := (List.mem_filter.mp ha).2
    simpa using this
  refine hpl.imp_of_mem ?_
  intro a b ha hb hlt
  exact Or.inr ⟨by rw [hmem a ha, hmem b hb], Nat.le_of_lt hlt⟩

/-- Under the invariant, `load_events(episode_id)` is just the filtered log in
append order: the stable sort does not move anything. -/
lemma loadEvents_eq_filter (st : Store) (ep : Nat) (hinv : Inv st) :
    st.loadEvents (some ep) = epFilter st ep := by
  have hs := sorted_epFilter st ep (hinv ep).1
  exact hs.insertionSort_eq

lemma inv_cachePrime (st : Store) (ep v : Nat) (hv : v = epCount st ep + 1)
    (hinv : Inv st) : Inv { st with seqCache := (ep, v) :: st.seqCache } := by
  have hcnt : ∀ ep', epCount { st with seqCache := (ep, v) :: st.seqCache } ep'
      = epCount st ep' := fun _ => rfl
  intro ep'
  refine ⟨(hinv ep').1, ?_⟩
  intro n hn
  rw [hcnt]
  by_cases he : ep' = ep
  · subst he
    simp [List.lookup] at hn
    omega
  · have hb : (ep' == ep) = false := by simp [he]
    simp [List.lookup, hb] at hn
    exact (hinv ep').2 n hn

/-- `_get_next_seq` previews `epCount + 1`, touches only the cache of its own
store object, and preserves the invariant. -/
lemma getNextSeq_spec (st : Store) (ep : Nat) (hinv : Inv st) :
    (st.getNextSeq ep).1 = epCount st ep + 1
    ∧ (st.getNextSeq ep).2.events = st.events
    ∧ (st.getNextSeq ep).2.items = st.items
    ∧ (st.getNextSeq ep).2.bonds = st.bonds
    ∧ (st.getNextSeq ep).2.episodes = st.episodes
    ∧ (st.getNextSeq ep).2.networks = st.networks
    ∧ Inv (st.getNextSeq ep).2 := by
  unfold Store.getNextSeq
  cases hc : st.seqCache.lookup ep with
  | some n =>
    exact ⟨(hinv ep).2 n hc, rfl, rfl, rfl, rfl, rfl, hinv⟩
  | none =>
    rw [loadEvents_eq_filter st ep hinv]
    cases hf : epFilter st ep with
    | nil =>
      have hcount : epCount st ep = 0 := by unfold epCount; rw [hf]; rfl
      exact ⟨by simp [hcount], rfl, rfl, rfl, rfl, rfl,
        inv_cachePrime st ep 1 (by omega) hinv⟩
    | cons a l =>
      have hmax : ((a :: l).map (·.seq)).foldl Nat.max 0 = epCount st ep := by
        rw [← hf, (hinv ep).1]
        exact foldl_max_range' (epCount st ep)
      exact ⟨by
          show ((a :: l).map (·.seq)).foldl Nat.max 0 + 1 = epCount st ep + 1
          rw [hmax],
        rfl, rfl, rfl, rfl, rfl,
        inv_cachePrime st ep (((a :: l).map (·.seq)).foldl Nat.max 0 + 1)
          (by omega) hinv⟩

/-- Rebuild the invariant from the parts of a store that extends `st0` by one
event `A` of the right seq, with a correctly advanced cache. -/
lemma inv_of_parts (st' st0 : Store) (A : QDPIEvent) (rest : List (Nat × Nat))
    (hinv : Inv st0)
    (hev : st'.events = st0.events ++ [A])
    (hc : st'.seqCache = (A.episode_id, A.seq + 1) :: rest)
    (hseq : A.seq = epCount st0 A.episode_id + 1)
    (hrest : ∀ ep' n, rest.lookup ep' = some n → n = epCount st0 ep' + 1) :
    Inv st' := by
  have hfe_eq : epFilter st' A.episode_id = epFilter st0 A.episode_id ++ [A] := by
    unfold epFilter
    rw [hev, List.filter_append]
    simp
  have hfe_ne : ∀ ep', A.episode_id ≠ ep' → epFilter st' ep' = epFilter st0 ep' := by
    intro ep' hne
    unfold epFilter
    rw [hev, List.filter_append]
    simp [hne]
  have hcnt_eq : epCount st' A.episode_id = epCount st0 A.episode_id + 1 := by
    unfold epCount
    rw [hfe_eq, List.length_append, List.length_singleton]
  have hcnt_ne : ∀ ep', A.episode_id ≠ ep' → epCount st' ep' = epCount st0 ep' := by
    intro ep' hne
    unfold epCount
    rw [hfe_ne ep' hne]
  intro ep'
  by_cases he : A.episode_id = ep'
  · subst he
    constructor
    · rw [hfe_eq, hcnt_eq, List.map_append, (hinv A.episode_id).1,
        List.range'_concat]
      have harith : 1 + 1 * epCount st0 A.episode_id
          = epCount st0 A.episode_id + 1 := by omega
      rw [harith]
      simp [hseq]
    · intro n hn
      rw [hc] at hn
      simp [List.lookup] at hn
      rw [hcnt_eq]
      omega
  · constructor
    · rw [hfe_ne ep' he, hcnt_ne ep' he]
      exact (hinv ep').1
    · intro n hn
      rw [hc] at hn
      have hb : (ep' == A.episode_id) = false := by simp [Ne.symm he]
      simp [List.lookup, hb] at hn
      rw [hcnt_ne ep' he]
      exact hrest ep' n hn

/-- `append_event` appends exactly one record, of the event's episode, carrying
seq `epCount + 1`; snapshots are untouched; the invariant is preserved. -/
lemma appendEvent_spec (st : Store) (ev : QDPIEvent) (hinv : Inv st) :
    (st.appendEvent ev).events
      = st.events ++ [{ ev with seq := epCount st ev.episode_id + 1 }]
    ∧ (st.appendEvent ev).items = st.items
    ∧ (st.appendEvent ev).bonds = st.bonds
    ∧ (st.appendEvent ev).episodes = st.episodes
    ∧ (st.appendEvent ev).networks = st.networks
    ∧ Inv (st.appendEvent ev) := by
  obtain ⟨h1, h2, h3, h4, h5, h6, h7⟩ := getNextSeq_spec st ev.episode_id hinv
  unfold Store.appendEvent
  cases hgs : st.getNextSeq ev.episode_id with
  | mk expected st1 =>
    rw [hgs] at h1 h2 h3 h4 h5 h6 h7
    simp only [] at h1 h2 h3 h4 h5 h6 h7 ⊢
    subst h1
    refine ⟨by rw [h2], h3, h4, h5, h6, ?_⟩
    refine inv_of_parts _ st { ev with seq := epCount st ev.episode_id + 1 }
      st1.seqCache hinv (by rw [h2]) rfl rfl ?_
    intro ep' n hn
    have := (h7 ep').2 n hn
    rwa [epCount_congr h2] at this

/-- Successful `log_event` with a canonical name: returns the fully-formed event
(fresh id, previewed seq) and appends exactly that record. -/
lemma logEvent_spec (st : Store) (fresh nid eid : Nat) (name q d : String)
    (r : Refs) (hname : CANONICAL_EVENT_NAMES.contains name = true)
    (hinv : Inv st) :
    ∃ st',
      logEvent st fresh nid eid name q d r =
        (.ok { id := fresh, network_id := nid, episode_id := eid,
               seq := epCount st eid + 1, qdpi := q, direction := d,
               name := name, refs := r }, st', fresh + 1)
      ∧ st'.events = st.events ++
          [{ id := fresh, network_id := nid, episode_id := eid,
             seq := epCount st eid + 1, qdpi := q, direction := d,
             name := name, refs := r }]
      ∧ st'.items = st.items ∧ st'.bonds = st.bonds ∧ st'.episodes = st.episodes
      ∧ st'.networks = st.networks ∧ Inv st' := by
  unfold logEvent
  rw [if_pos hname]
  obtain ⟨g1, g2, g3, g4, g5, g6, g7⟩ := getNextSeq_spec st eid hinv
  cases hgs : st.getNextSeq eid with
  | mk n st1 =>
    rw [hgs] at g1 g2 g3 g4 g5 g6 g7
    simp only [] at g1 g2 g3 g4 g5 g6 g7
    subst g1
    obtain ⟨a1, a2, a3, a4, a5, a6⟩ := appendEvent_spec st1
      { id := fresh, network_id := nid, episode_id := eid,
        seq := epCount st eid + 1, qdpi := q, direction := d,
        name := name, refs := r } g7
    rw [epCount_congr g2] at a1
    refine ⟨_, rfl, ?_, ?_, ?_, ?_, ?_, a6⟩
    · rw [a1, g2]
    · rw [a2, g3]
    · rw [a3, g4]
    · rw [a4, g5]
    · rw [a5, g6]

/-- `_log_credits`: the running balance is bumped by `delta` and a
`credits.delta` event carrying the new balance is appended; nothing else moves. -/
lemma logCredits_spec (sys : Sys) (nid eid : Nat) (delta : Int) (reason : String)
    (i b o e : Option Nat) (hinv : Inv sys.store) :
    ∃ sysF,
      sys.logCredits nid eid delta reason i b o e = (.ok (), sysF)
      ∧ sysF.store.events = sys.store.events ++
          [{ id := sys.fresh, network_id := nid, episode_id := eid,
             seq := epCount sys.store eid + 1, qdpi := "Q",
             direction := "system→field", name := "credits.delta",
             refs := { delta := some delta,
                       balance_after := some (sys.credits_balance + delta),
                       reason := some reason, item_id := i, bond_id := b,
                       output_item_id := o, event_id := e } }]
      ∧ sysF.credits_balance = sys.credits_balance + delta
      ∧ sysF.store.items = sys.store.items
      ∧ sysF.store.bonds = sys.store.bonds
      ∧ sysF.store.episodes = sys.store.episodes
      ∧ sysF.store.networks = sys.store.networks
      ∧ Inv sysF.store
      ∧ sysF.fresh = sys.fresh + 1
      ∧ sysF.network_id = sys.network_id ∧ sysF.episode_id = sys.episode_id := by
  obtain ⟨st', h1, h2, h3, h4, h5, h6, h7⟩ := logEvent_spec sys.store sys.fresh
    nid eid "credits.delta" "Q" "system→field"
    { delta := some delta, balance_after := some (sys.credits_balance + delta),
      reason := some reason, item_id := i, bond_id := b,
      output_item_id := o, event_id := e } (by rfl) hinv
  simp only [Sys.logCredits, creditsDelta]
  rw [h1]
  exact ⟨_, rfl, h2, rfl, h3, h4, h5, h6, h7, rfl, rfl, rfl⟩

/-- `_load_context` on a fresh CLI object: when it comes back with a loaded
episode, the store and id supply are untouched and the running balance is the
derived credit balance of that episode. -/
lemma loadContext_spec (sys : Sys) (h0 : sys.episode_id = none) (eid : Nat)
    (he : (loadContext sys).episode_id = some eid) :
    (loadContext sys).store = sys.store
    ∧ (loadContext sys).fresh = sys.fresh
    ∧ (loadContext sys).credits_balance
        = sys.store.computeCreditsBalance (some eid) := by
  cases hn : sys.store.loadNetworks with
  | nil =>
    unfold loadContext at he
    simp only [hn] at he
    rw [h0] at he
    cases he
  | cons nw rest =>
    cases hl : (sys.store.loadEpisodes { network_id := some nw.id }).getLast? with
    | none =>
      unfold loadContext at he
      simp only [hn, hl] at he
      rw [h0] at he
      cases he
    | some ep =>
      have hlc : loadContext sys =
          { sys with
            network_id := some nw.id
            episode_id := some ep.id
            credits_balance := sys.store.computeCreditsBalance (some ep.id) } := by
        unfold loadContext
        simp only [hn, hl]
      rw [hlc] at he ⊢
      have hid : ep.id = eid := by
        simpa using he
      subst hid
      exact ⟨rfl, rfl, rfl⟩

/-- Derived balance after appending a batch of events: the last new
`credits.delta` of the episode decides the balance; with none, it is unchanged. -/
lemma computeCreditsBalance_append (st st' : Store) (eid : Nat)
    (new : List QDPIEvent) (hinv : Inv st) (hinv' : Inv st')
    (hev : st'.events = st.events ++ new) :
    st'.computeCreditsBalance (some eid) =
      (((new.filter (fun x => x.episode_id == eid)).filter
          (fun x => x.name == "credits.delta")).getLast?.map
        (fun x => x.refs.balance_after.getD 0)).getD
        (st.computeCreditsBalance (some eid)) := by
  unfold Store.computeCreditsBalance
  rw [loadEvents_eq_filter st' eid hinv', loadEvents_eq_filter st eid hinv]
  unfold epFilter
  rw [hev]
  simp only [List.filter_append, List.getLast?_append]
  cases h : ((new.filter (fun x => x.episode_id == eid)).filter
      (fun x => x.name == "credits.delta")).getLast? with
  | none => simp [h, Option.or]
  | some x => simp [h, Option.or]

/-- The concrete scenario store satisfies the sequencing invariant. -/
lemma wStore_inv : Inv wStore := by
  intro ep
  by_cases h : ep = 2
  · subst h
    exact ⟨by decide, fun n hn => nomatch hn⟩
  · have h2 : (2 : Nat) ≠ ep := fun hh => h hh.symm
    have hf : epFilter wStore ep = [] := by
      simp [epFilter, wStore, wSeed, wCommit, h2]
    refine ⟨?_, fun n hn => nomatch hn⟩
    rw [hf]
    simp [epCount, hf]

/-! ## Sequences of store operations (for the sequencing claims) -/

/-- A step of a store history: an `append_event` call with an arbitrary event
payload, or a process restart (same files, fresh `Store` object with an empty
seq cache). -/
inductive StoreOp where
  | append (ev : QDPIEvent)
  | restart

/-- Apply one store operation. -/
def stepOp (st : Store) (op : StoreOp) : Store :=
  match op with
  | .append ev => st.appendEvent ev
  | .restart => st.restart

/-- Run a history of operations from a fresh store over an empty directory. -/
def runOps (ops : List StoreOp) : Store :=
  ops.foldl stepOp Store.empty

lemma inv_stepOp {st : Store} (h : Inv st) (op : StoreOp) : Inv (stepOp st op) := by
  cases op with
  | append ev => exact (appendEvent_spec st ev h).2.2.2.2.2
  | restart => exact inv_restart h

lemma inv_foldl (ops : List StoreOp) : ∀ st, Inv st → Inv (ops.foldl stepOp st) := by
  induction ops with
  | nil => intro st h; exact h
  | cons op rest ih => intro st h; exact ih _ (inv_stepOp h op)

lemma inv_runOps (ops : List StoreOp) : Inv (runOps ops) :=
  inv_foldl ops Store.empty inv_empty

/-- Among a list of events pairwise increasing in `seq`, the last one has the
greatest `seq`. -/
lemma pairwise_getLast_max {l : List QDPIEvent}
    (hp : l.Pairwise (fun a b => a.seq < b.seq)) {e : QDPIEvent}
    (hl : l.getLast? = some e) : ∀ x ∈ l, x.seq ≤ e.seq := by
  induction l using List.reverseRecOn with
  | nil => cases hl
  | append_singleton l' a ih =>
    rw [List.getLast?_concat] at hl
    cases hl
    obtain ⟨-, -, hrel⟩ := List.pairwise_append.mp hp
    intro x hx
    rcases List.mem_append.mp hx with hx' | hx'
    · exact Nat.le_of_lt (hrel x hx' e (by simp))
    · have : x = e := by simpa using hx'
      subst this
      exact Nat.le_refl _

/-- **C1.** For every episode_id and every sequence of `append_event` calls,
with restarts clearing the in-memory seq cache between appends, the loaded
events of that episode are exactly the appended records in append order with
`seq` values `1..N` (no duplicates, no gaps); and after a cold start
`_get_next_seq` recovers the counter as `max(seq)+1` from the log, i.e. `N+1`
(which is `1` when the episode has no events). -/
theorem claim_C1 (ops : List StoreOp) (ep : Nat) :
    (runOps ops).loadEvents (some ep) = epFilter (runOps ops) ep
    ∧ (epFilter (runOps ops) ep).map (·.seq)
        = List.range' 1 (epCount (runOps ops) ep)
    ∧ (((runOps ops).restart).getNextSeq ep).1 = epCount (runOps ops) ep + 1 := by
  have hinv := inv_runOps ops
  refine ⟨loadEvents_eq_filter _ ep hinv, (hinv ep).1, ?_⟩
  have hr := inv_restart hinv
  have hgs := (getNextSeq_spec ((runOps ops).restart) ep hr).1
  rwa [epCount_congr (rfl : ((runOps ops).restart).events = (runOps ops).events)]
    at hgs

/-- **C9.** For every episode of a store satisfying the sequencing invariant,
`compute_credits_balance` returns `0` when the episode has no `credits.delta`
event, and otherwise the `balance_after` of the `credits.delta` event with the
greatest `seq` (the last in seq order). -/
theorem claim_C9 (st : Store) (ep : Nat) (hinv : Inv st) :
    ((st.loadEvents (some ep)).filter (fun e => e.name == "credits.delta") = []
      → st.computeCreditsBalance (some ep) = 0)
    ∧ ∀ e, ((st.loadEvents (some ep)).filter
          (fun e => e.name == "credits.delta")).getLast? = some e →
        st.computeCreditsBalance (some ep) = e.refs.balance_after.getD 0
        ∧ ∀ e' ∈ (st.loadEvents (some ep)).filter
            (fun e => e.name == "credits.delta"), e'.seq ≤ e.seq := by
  constructor
  · intro h
    simp only [Store.computeCreditsBalance, h]
    rfl
  · intro e he
    refine ⟨by simp only [Store.computeCreditsBalance, he], ?_⟩
    have hpl : (epFilter st ep).Pairwise (fun a b => a.seq < b.seq) := by
      have hr := List.pairwise_lt_range' 1 (epCount st ep)
      rw [← (hinv ep).1] at hr
      exact List.pairwise_map.mp hr
    have hcs : ((st.loadEvents (some ep)).filter
        (fun e => e.name == "credits.delta")).Pairwise
          (fun a b => a.seq < b.seq) := by
      rw [loadEvents_eq_filter st ep hinv]
      exact hpl.filter _
    exact pairwise_getLast_max hcs he

/-- **C9 witness**: evaluated at the concrete scenario store. -/
theorem claim_C9_witness :
    wStore.computeCreditsBalance (some 2) = wSeed.refs.balance_after.getD 0
    ∧ wStore.computeCreditsBalance (some 3) = 0 := by
  constructor
  · exact ((claim_C9 wStore 2 wStore_inv).2 wSeed (by decide)).1
  · exact (claim_C9 wStore 3 wStore_inv).1 (by decide)

/-- `_get_next_seq` never touches the event stream (unconditionally). -/
lemma getNextSeq_events (st : Store) (ep : Nat) :
    (st.getNextSeq ep).2.events = st.events := by
  unfold Store.getNextSeq
  cases hc : st.seqCache.lookup ep with
  | some n => rfl
  | none =>
    cases hf : st.loadEvents (some ep) with
    | nil => rfl
    | cons a l => rfl

/-- **C3.** An event whose name is not in the canonical enumeration is rejected
by `log_event` with `ValueError` before a sequence number is allocated and
before anything is written: store (log and seq cache alike) and id supply come
back untouched.  Dually, any record in the log after a `log_event` call either
was already there or carries the validated (hence canonical) name. -/
theorem claim_C3 :
    (∀ (st : Store) (fresh nid eid : Nat) (name q d : String) (r : Refs),
        name ∉ CANONICAL_EVENT_NAMES →
        logEvent st fresh nid eid name q d r
          = (.error (.valueError name), st, fresh))
    ∧ (∀ (st : Store) (fresh nid eid : Nat) (name q d : String) (r : Refs)
        (ev : QDPIEvent), Inv st →
        ev ∈ (logEvent st fresh nid eid name q d r).2.1.events →
        ev ∈ st.events ∨ ev.name ∈ CANONICAL_EVENT_NAMES) := by
  constructor
  · intro st fresh nid eid name q d r h
    have hc : CANONICAL_EVENT_NAMES.contains name = false := by simpa using h
    unfold logEvent
    rw [if_neg (by rw [hc]; exact Bool.false_ne_true)]
  · intro st fresh nid eid name q d r ev hinv hmem
    cases hcontains : CANONICAL_EVENT_NAMES.contains name with
    | false =>
      unfold logEvent at hmem
      rw [if_neg (by rw [hcontains]; exact Bool.false_ne_true)] at hmem
      exact Or.inl hmem
    | true =>
      obtain ⟨st', h1, h2, -⟩ := logEvent_spec st fresh nid eid name q d r
        hcontains hinv
      rw [h1] at hmem
      simp only [] at hmem
      rw [h2] at hmem
      rcases List.mem_append.mp hmem with h | h
      · exact Or.inl h
      · right
        have hev : ev.name = name := by
          have heq : ev = QDPIEvent.mk fresh nid eid (epCount st eid + 1)
              q d name r := by simpa using h
          rw [heq]
        rw [hev]
        simpa using hcontains

/-- **C3 witness**: a concrete rejected append (name "bogus") and a concrete
accepted append (name "store.commit") on the scenario store. -/
theorem claim_C3_witness :
    logEvent wStore 1000 1 2 "bogus" "Q" "system→field" {}
      = (.error (.valueError "bogus"), wStore, 1000)
    ∧ (wSeed ∈ wStore.events ∨ wSeed.name ∈ CANONICAL_EVENT_NAMES) := by
  constructor
  · exact claim_C3.1 wStore 1000 1 2 "bogus" "Q" "system→field" {} (by decide)
  · exact claim_C3.2 wStore 1000 1 2 "store.commit" "Q" "system→field" {} wSeed
      wStore_inv (by decide)

/-- **C4.** `dict_to_episode` is imported by the `fieldkit` package initializer
(from `store_jsonl`) and by `cli.py`, but `store_jsonl.py` defines no such name:
the package import fails at exactly that name; and were the import bypassed,
`_get_episode_object` — the helper behind all four curate add/remove commands —
raises `NameError` instead of returning an episode, as do the four commands. -/
theorem claim_C4 :
    importFrom storeJsonlModuleNames fieldkitInitStoreJsonlImports
      = .error "dict_to_episode"
    ∧ "dict_to_episode" ∈ fieldkitInitStoreJsonlImports
    ∧ "dict_to_episode" ∈ cliFieldkitImportNames
    ∧ "dict_to_episode" ∉ storeJsonlModuleNames
    ∧ (∀ (sys : Sys) (eid : Nat) (env : List String) (ed : EpisodeRec),
        sys.store.getEpisode eid = some ed →
        env.contains "dict_to_episode" = false →
        getEpisodeObjectCore sys eid env
          = (.error (.nameError "dict_to_episode"), sys))
    ∧ (∀ (sys : Sys) (nid eid item_id : Nat) (env : List String)
        (it : ItemRec) (ed : EpisodeRec),
        sys.store.getItem item_id = some it →
        it.network_id = nid → it.episode_id = eid →
        sys.store.getEpisode eid = some ed →
        env.contains "dict_to_episode" = false →
        cmdCurateItemAddCore sys nid eid item_id env
          = (.error (.nameError "dict_to_episode"), sys))
    ∧ (∀ (sys : Sys) (nid eid item_id : Nat) (env : List String)
        (ed : EpisodeRec),
        sys.store.getEpisode eid = some ed →
        env.contains "dict_to_episode" = false →
        cmdCurateItemRemoveCore sys nid eid item_id env
          = (.error (.nameError "dict_to_episode"), sys))
    ∧ (∀ (sys : Sys) (nid eid bond_id : Nat) (env : List String)
        (b : BondRec) (ed : EpisodeRec),
        sys.store.getBond bond_id = some b →
        b.network_id = nid → b.episode_id = eid →
        sys.store.getEpisode eid = some ed →
        env.contains "dict_to_episode" = false →
        cmdCurateBondAddCore sys nid eid bond_id env
          = (.error (.nameError "dict_to_episode"), sys))
    ∧ (∀ (sys : Sys) (nid eid bond_id : Nat) (env : List String)
        (ed : EpisodeRec),
        sys.store.getEpisode eid = some ed →
        env.contains "dict_to_episode" = false →
        cmdCurateBondRemoveCore sys nid eid bond_id env
          = (.error (.nameError "dict_to_episode"), sys)) := by
  have hobj : ∀ (sys : Sys) (eid : Nat) (env : List String) (ed : EpisodeRec),
      sys.store.getEpisode eid = some ed →
      env.contains "dict_to_episode" = false →
      getEpisodeObjectCore sys eid env
        = (.error (.nameError "dict_to_episode"), sys) := by
    intro sys eid env ed hed henv
    unfold getEpisodeObjectCore
    rw [hed, henv]
    simp
  refine ⟨rfl, by decide, by decide, by decide, hobj, ?_, ?_, ?_, ?_⟩
  · intro sys nid eid item_id env it ed hit hn he hed henv
    unfold cmdCurateItemAddCore
    simp only [hit, hobj sys eid env ed hed henv]
    simp [hn, he]
  · intro sys nid eid item_id env ed hed henv
    unfold cmdCurateItemRemoveCore
    rw [hobj sys eid env ed hed henv]
  · intro sys nid eid bond_id env b ed hb hn he hed henv
    unfold cmdCurateBondAddCore
    simp only [hb, hobj sys eid env ed hed henv]
    simp [hn, he]
  · intro sys nid eid bond_id env ed hed henv
    unfold cmdCurateBondRemoveCore
    rw [hobj sys eid env ed hed henv]

/-- **C4 witness**: the import-bypassed world evaluated on the scenario store
with an empty global environment. -/
theorem claim_C4_witness :
    getEpisodeObjectCore wSys 2 [] = (.error (.nameError "dict_to_episode"), wSys)
    ∧ cmdCurateItemAddCore wSys 1 2 3 [] =
        (.error (.nameError "dict_to_episode"), wSys)
    ∧ cmdCurateItemRemoveCore wSys 1 2 3 [] =
        (.error (.nameError "dict_to_episode"), wSys)
    ∧ cmdCurateBondAddCore wSys 1 2 5 [] =
        (.error (.nameError "dict_to_episode"), wSys)
    ∧ cmdCurateBondRemoveCore wSys 1 2 5 [] =
        (.error (.nameError "dict_to_episode"), wSys) := by
  refine ⟨?_, ?_, ?_, ?_, ?_⟩
  · exact claim_C4.2.2.2.2.1 wSys 2 [] wEpisode (by decide) (by decide)
  · exact claim_C4.2.2.2.2.2.1 wSys 1 2 3 [] wItem3 wEpisode (by decide)
      (by decide) (by decide) (by decide) (by decide)
  · exact claim_C4.2.2.2.2.2.2.1 wSys 1 2 3 [] wEpisode (by decide) (by decide)
  · exact claim_C4.2.2.2.2.2.2.2.1 wSys 1 2 5 [] wBond5 wEpisode (by decide)
      (by decide) (by decide) (by decide) (by decide)
  · exact claim_C4.2.2.2.2.2.2.2.2 wSys 1 2 5 [] wEpisode (by decide) (by decide)

/-- The invariant only reads the log and the seq cache, so stores agreeing on
those satisfy it together (snapshot upserts preserve it). -/
lemma inv_congr {st st' : Store} (hev : st'.events = st.events)
    (hc : st'.seqCache = st.seqCache) (h : Inv st) : Inv st' := by
  intro ep
  refine ⟨?_, ?_⟩
  · rw [epFilter_congr hev, epCount_congr hev]
    exact (h ep).1
  · intro n hn
    rw [hc] at hn
    rw [epCount_congr hev]
    exact (h ep).2 n hn

/-! ## Last-write-wins reconstruction (snapshot store) -/

/-- The spec's reconstruction rule, stated independently of the dict-based
implementation: scan the whole stream and keep, per id, the record from the
latest append. -/
def lastWriteWins {R : Type} (getId : R → Nat) (rs : List R) (i : Nat) : Option R :=
  (rs.filter (fun r => getId r == i)).getLast?

lemma lookup_insertAssoc {R : Type} (m : List (Nat × R)) (k i : Nat) (v : R) :
    (insertAssoc m k v).lookup i = if i = k then some v else m.lookup i := by
  induction m with
  | nil =>
    by_cases h : i = k
    · simp [insertAssoc, List.lookup, h]
    · have hb : (i == k) = false := by simpa using h
      simp [insertAssoc, List.lookup, hb, h]
  | cons p rest ih =>
    obtain ⟨k', v'⟩ := p
    by_cases h : k' = k
    · subst h
      by_cases h2 : i = k'
      · simp [insertAssoc, List.lookup, h2]
      · have hb : (i == k') = false := by simpa using h2
        simp [insertAssoc, List.lookup, hb, h2]
    · by_cases h2 : i = k'
      · have h3 : ¬ i = k := by
          subst h2
          exact h
        have hb : (i == k') = true := by simpa using h2
        simp [insertAssoc, List.lookup, h, hb, h3]
      · have hb : (i == k') = false := by simpa using h2
        simp [insertAssoc, List.lookup, h, hb, ih]

lemma loadLatestById_concat {R : Type} (getId : R → Nat) (rs : List R) (x : R) :
    loadLatestById getId (rs ++ [x])
      = insertAssoc (loadLatestById getId rs) (getId x) x := by
  unfold loadLatestById
  rw [List.foldl_append]
  rfl

/-- `get(id)` equals the full-rescan last-write-wins reconstruction. -/
lemma getLatest_eq_lastWriteWins {R : Type} (getId : R → Nat) (rs : List R)
    (i : Nat) : getLatest getId rs i = lastWriteWins getId rs i := by
  induction rs using List.reverseRecOn with
  | nil => rfl
  | append_singleton rs x ih =>
    unfold getLatest at *
    unfold lastWriteWins at *
    rw [loadLatestById_concat, lookup_insertAssoc, List.filter_append]
    by_cases h : i = getId x
    · subst h
      simp [List.getLast?_concat]
    · have hb : (getId x == i) = false := by
        simp
        exact fun hh => h hh.symm
      simp [h, hb, ih]

lemma insertAssoc_mem {R : Type} {m : List (Nat × R)} {k : Nat} {v : R}
    {p : Nat × R} (h : p ∈ insertAssoc m k v) : p ∈ m ∨ p = (k, v) := by
  induction m with
  | nil =>
    right
    simpa [insertAssoc] using h
  | cons q rest ih =>
    obtain ⟨k', v'⟩ := q
    by_cases hk : k' = k
    · subst hk
      simp only [insertAssoc, if_pos rfl] at h
      rcases List.mem_cons.mp h with h' | h'
      · exact Or.inr h'
      · exact Or.inl (List.mem_cons.mpr (Or.inr h'))
    · simp only [insertAssoc, if_neg hk] at h
      rcases List.mem_cons.mp h with h' | h'
      · exact Or.inl (List.mem_cons.mpr (Or.inl h'))
      · rcases ih h' with h'' | h''
        · exact Or.inl (List.mem_cons.mpr (Or.inr h''))
        · exact Or.inr h''

lemma loadLatestById_key {R : Type} (getId : R → Nat) (rs : List R) :
    ∀ p ∈ loadLatestById getId rs, p.1 = getId p.2 := by
  induction rs using List.reverseRecOn with
  | nil => intro p hp; cases hp
  | append_singleton rs x ih =>
    rw [loadLatestById_concat]
    intro p hp
    rcases insertAssoc_mem hp with h | h
    · exact ih p h
    · subst h; rfl

lemma insertAssoc_keys {R : Type} (m : List (Nat × R)) (k : Nat) (v : R) :
    (insertAssoc m k v).map Prod.fst
      = if k ∈ m.map Prod.fst then m.map Prod.fst
        else m.map Prod.fst ++ [k] := by
  induction m with
  | nil => simp [insertAssoc]
  | cons q rest ih =>
    obtain ⟨k', v'⟩ := q
    by_cases hk : k' = k
    · subst hk
      simp [insertAssoc]
    · simp only [insertAssoc, if_neg hk, List.map_cons, List.mem_cons]
      have hk' : ¬ k = k' := fun hh => hk hh.symm
      by_cases hmem : k ∈ rest.map Prod.fst
      · simp [hk', hmem, ih]
      · simp [hk', hmem, ih]

lemma loadLatestById_nodup {R : Type} (getId : R → Nat) (rs : List R) :
    ((loadLatestById getId rs).map Prod.fst).Nodup := by
  induction rs using List.reverseRecOn with
  | nil => exact List.nodup_nil
  | append_singleton rs x ih =>
    rw [loadLatestById_concat, insertAssoc_keys]
    by_cases hmem : getId x ∈ (loadLatestById getId rs).map Prod.fst
    · rw [if_pos hmem]; exact ih
    · rw [if_neg hmem]
      refine List.Nodup.append ih (List.nodup_singleton _) ?_
      intro a ha hb
      have : a = getId x := by simpa using hb
      subst this
      exact hmem ha

lemma lookup_eq_some_iff_mem {R : Type} {m : List (Nat × R)}
    (hnd : (m.map Prod.fst).Nodup) (k : Nat) (v : R) :
    m.lookup k = some v ↔ (k, v) ∈ m := by
  induction m with
  | nil => simp [List.lookup]
  | cons p rest ih =>
    obtain ⟨k', v'⟩ := p
    rw [List.map_cons, List.nodup_cons] at hnd
    by_cases h : k = k'
    · subst h
      simp only [List.lookup, beq_self_eq_true, List.mem_cons]
      constructor
      · intro hv
        left
        have : v' = v := by simpa using hv
        rw [this]
      · intro hmem
        rcases hmem with h' | h'
        · have hv : v = v' := by
            have := congrArg Prod.snd h'
            simpa using this
          rw [hv]
        · exfalso
          exact hnd.1 (List.mem_map.mpr ⟨(k, v), h', rfl⟩)
    · have hb : (k == k') = false := by simpa using h
      simp only [List.lookup, hb, List.mem_cons]
      rw [ih hnd.2]
      constructor
      · exact Or.inr
      · intro hmem
        rcases hmem with h' | h'
        · exact absurd (congrArg Prod.fst h') (by simpa using h)
        · exact h'

/-- `list()` membership equals the full-rescan last-write-wins reconstruction. -/
lemma mem_latestValues_iff {R : Type} (getId : R → Nat) (rs : List R) (r : R) :
    r ∈ latestValues getId rs ↔ getLatest getId rs (getId r) = some r := by
  unfold latestValues getLatest
  constructor
  · intro h
    obtain ⟨p, hp, hpr⟩ := List.mem_map.mp h
    have hk := loadLatestById_key getId rs p hp
    have hpe : p = (getId r, r) := by
      obtain ⟨a, b⟩ := p
      simp only [] at hpr hk
      subst hpr
      subst hk
      rfl
    rw [hpe] at hp
    exact (lookup_eq_some_iff_mem (loadLatestById_nodup getId rs) _ _).mpr hp
  · intro h
    have hmem := (lookup_eq_some_iff_mem (loadLatestById_nodup getId rs) _ _).mp h
    exact List.mem_map.mpr ⟨(getId r, r), hmem, rfl⟩

/-- A `get` hit returns a record bearing the requested id. -/
lemma getLatest_id {R : Type} (getId : R → Nat) (rs : List R) (i : Nat) (r : R)
    (h : getLatest getId rs i = some r) : getId r = i := by
  unfold getLatest at h
  have hmem := (lookup_eq_some_iff_mem (loadLatestById_nodup getId rs) _ _).mp h
  exact (loadLatestById_key getId rs (i, r) hmem).symm

/-- Appending a record makes it the reconstruction of its own id. -/
lemma lastWriteWins_concat_self {R : Type} (getId : R → Nat) (rs : List R)
    (x : R) : lastWriteWins getId (rs ++ [x]) (getId x) = some x := by
  unfold lastWriteWins
  rw [List.filter_append]
  simp [List.getLast?_concat]

/-- **C8.** `get(id)` returns the record from the latest append bearing that id
(`None` when no append bears it), and `list(filter)` contains exactly the
records that are the latest append of their id and pass the exact-match
equality filter over the two filterable top-level fields — equal to a full
rescan with last-physical-write-wins per id.  Stated for the Item and Bond
streams (all four snapshot streams share the same code path). -/
theorem claim_C8 :
    (∀ (st : Store) (i : Nat), st.getItem i = lastWriteWins (·.id) st.items i)
    ∧ (∀ (st : Store) (f : Filter) (r : ItemRec),
        r ∈ st.loadItems f ↔
          (lastWriteWins (·.id) st.items r.id = some r
            ∧ matchesFilter f (some r.network_id) (some r.episode_id) = true))
    ∧ (∀ (st : Store) (i : Nat), st.getBond i = lastWriteWins (·.id) st.bonds i)
    ∧ (∀ (st : Store) (f : Filter) (r : BondRec),
        r ∈ st.loadBonds f ↔
          (lastWriteWins (·.id) st.bonds r.id = some r
            ∧ matchesFilter f (some r.network_id) (some r.episode_id) = true)) := by
  refine ⟨?_, ?_, ?_, ?_⟩
  · intro st i
    exact getLatest_eq_lastWriteWins (·.id) st.items i
  · intro st f r
    unfold Store.loadItems applyFilters
    rw [List.mem_filter]
    rw [mem_latestValues_iff (·.id) st.items r]
    rw [getLatest_eq_lastWriteWins (·.id) st.items r.id]
  · intro st i
    exact getLatest_eq_lastWriteWins (·.id) st.bonds i
  · intro st f r
    unfold Store.loadBonds applyFilters
    rw [List.mem_filter]
    rw [mem_latestValues_iff (·.id) st.bonds r]
    rw [getLatest_eq_lastWriteWins (·.id) st.bonds r.id]

/- The event-logging primitives are fully characterized by `logEvent_spec` and
`logCredits_spec`; sealing them keeps the workflow proofs from re-unfolding the
sequencing machinery at every step. -/
attribute [irreducible] logEvent Sys.logCredits

/-! ## The Bond workflow, forced-failure path -/

set_option maxHeartbeats 1000000 in
/-- Forced-failure `cmd_bond_run` (after `_require_init`): the run succeeds as a
command, returns "no output", leaves the running balance exactly where it
started, re-saves the Bond with only `last_error` changed, touches no item, and
appends run-requested / spend / execution-failed / refund / commit events, the
refund undoing the spend; the derived balance is back to its pre-run value. -/
lemma bondRun_fail_spec (sys : Sys) (nid eid bond_id : Nat) (ot fr : String)
    (bd : BondRec) (hinv : Inv sys.store)
    (hbd : sys.store.getBond bond_id = some bd)
    (hstat : bd.status ≠ "executed") :
    ∃ sysF,
      cmdBondRunCore sys nid eid bond_id ot true fr = (.ok none, sysF)
      ∧ sysF.credits_balance = sys.credits_balance
      ∧ Inv sysF.store
      ∧ sysF.store.items = sys.store.items
      ∧ sysF.store.bonds = sys.store.bonds ++ [bondFailedUpdate bd fr]
      ∧ (∃ e1 e2 e3 e4 e5 : QDPIEvent,
          sysF.store.events = sys.store.events ++ [e1, e2, e3, e4, e5]
          ∧ e1.name = "bond.run_requested" ∧ e1.episode_id = eid
          ∧ e2.name = "credits.delta" ∧ e2.episode_id = eid
            ∧ e2.refs.delta = some (-10)
            ∧ e2.refs.reason = some "bond_run_spend"
          ∧ e3.name = "bond.execution_failed" ∧ e3.episode_id = eid
          ∧ e4.name = "credits.delta" ∧ e4.episode_id = eid
            ∧ e4.refs.delta = some 10
            ∧ e4.refs.reason = some "bond_run_refund"
          ∧ e5.name = "store.commit" ∧ e5.episode_id = eid)
      ∧ sysF.store.computeCreditsBalance (some eid) = sys.credits_balance := by
  have hb : (bd.status == "executed") = false := by simpa using hstat
  obtain ⟨st1, e1eq, e1ev, e1it, e1bd, e1ep, e1nw, e1inv⟩ :=
    logEvent_spec sys.store sys.fresh nid eid "bond.run_requested" "Q"
      "user→field" { bond_id := some bond_id } (by rfl) hinv
  unfold cmdBondRunCore
  simp only [hbd, hb, Bool.false_eq_true, if_false, bondRunRequested]
  rw [e1eq]
  simp only []
  obtain ⟨sys2, c2eq, c2ev, c2bal, c2it, c2bd, c2ep, c2nw, c2inv, c2fr, c2nid,
    c2eid⟩ :=
    logCredits_spec { sys with store := st1, fresh := sys.fresh + 1 } nid eid
      (-10) "bond_run_spend" none (some bond_id) none none e1inv
  simp only [] at c2eq c2ev c2bal c2it c2bd c2ep c2nw c2fr
  rw [c2eq]
  simp only [if_true]
  have h3inv : Inv (sys2.store.upsertBond (bondFailedUpdate bd fr)) :=
    inv_congr rfl rfl c2inv
  obtain ⟨st3, e3eq, e3ev, e3it, e3bd, e3ep, e3nw, e3inv⟩ :=
    logEvent_spec (sys2.store.upsertBond (bondFailedUpdate bd fr))
      sys2.fresh nid eid "bond.execution_failed" "M" "system→field"
      { bond_id := some bond_id, reason := some fr } (by rfl) h3inv
  simp only [bondExecutionFailed]
  rw [e3eq]
  simp only []
  obtain ⟨sys5, c5eq, c5ev, c5bal, c5it, c5bd, c5ep, c5nw, c5inv, c5fr, c5nid,
    c5eid⟩ :=
    logCredits_spec
      (Sys.mk st3 (sys2.fresh + 1) sys2.credits_balance sys2.network_id
        sys2.episode_id) nid eid
      10 "bond_run_refund" none (some bond_id) none none e3inv
  simp only [] at c5eq c5ev c5bal c5it c5bd c5ep c5nw c5fr
  rw [c5eq]
  simp only []
  obtain ⟨st6, e6eq, e6ev, e6it, e6bd, e6ep, e6nw, e6inv⟩ :=
    logEvent_spec sys5.store sys5.fresh nid eid "store.commit" "Q"
      "system→field" {} (by rfl) c5inv
  simp only [storeCommit]
  rw [e6eq]
  simp only []
  have hevents : st6.events = sys.store.events ++
      [QDPIEvent.mk sys.fresh nid eid (epCount sys.store eid + 1) "Q"
        "user→field" "bond.run_requested" { bond_id := some bond_id },
      QDPIEvent.mk (sys.fresh + 1) nid eid (epCount st1 eid + 1) "Q"
        "system→field" "credits.delta"
        { delta := some (-10), balance_after := some (sys.credits_balance + -10),
          reason := some "bond_run_spend", bond_id := some bond_id },
      QDPIEvent.mk sys2.fresh nid eid
        (epCount (sys2.store.upsertBond (bondFailedUpdate bd fr)) eid + 1)
        "M" "system→field" "bond.execution_failed"
        { reason := some fr, bond_id := some bond_id },
      QDPIEvent.mk (sys2.fresh + 1) nid eid (epCount st3 eid + 1) "Q"
        "system→field" "credits.delta"
        { delta := some 10, balance_after := some (sys2.credits_balance + 10),
          reason := some "bond_run_refund", bond_id := some bond_id },
      QDPIEvent.mk sys5.fresh nid eid (epCount sys5.store eid + 1) "Q"
        "system→field" "store.commit" {}] := by
    rw [e6ev, c5ev, e3ev]
    show (sys2.store.upsertBond _).events ++ _ ++ _ ++ _ = _
    unfold Store.upsertBond
    simp only []
    rw [c2ev, e1ev]
    simp [List.append_assoc]
  refine ⟨_, rfl, ?_, ?_, ?_, ?_, ?_, ?_⟩
  · show sys5.credits_balance = sys.credits_balance
    rw [c5bal, c2bal]
    omega
  · show Inv st6
    exact e6inv
  · show st6.items = sys.store.items
    rw [e6it, c5it, e3it]
    show (sys2.store.upsertBond _).items = _
    unfold Store.upsertBond
    simp only []
    rw [c2it, e1it]
  · show st6.bonds = sys.store.bonds ++ _
    rw [e6bd, c5bd, e3bd]
    show (sys2.store.upsertBond _).bonds = _
    unfold Store.upsertBond
    simp only []
    rw [c2bd, e1bd]
  · exact ⟨_, _, _, _, _, hevents, rfl, rfl, rfl, rfl, rfl, rfl, rfl, rfl,
      rfl, rfl, rfl, rfl, rfl, rfl⟩
  · show st6.computeCreditsBalance (some eid) = sys.credits_balance
    rw [computeCreditsBalance_append sys.store st6 eid _ hinv e6inv hevents]
    have d1 : (("bond.run_requested" : String) == "credits.delta") = false := by
      decide
    have d3 : (("bond.execution_failed" : String) == "credits.delta") = false := by
      decide
    have d5 : (("store.commit" : String) == "credits.delta") = false := by
      decide
    simp only [List.filter_cons, List.filter_nil, beq_self_eq_true, if_true,
      d1, d3, d5, Bool.false_eq_true, if_false, List.getLast?_concat,
      List.getLast?_cons_cons, List.getLast?_singleton, Option.map_some,
      Option.getD_some]
    show sys2.credits_balance + 10 = sys.credits_balance
    rw [c2bal]
    omega

set_option maxHeartbeats 1000000 in
/-- Successful `cmd_bond_run` (after `_require_init`): returns the new output
item id, and the running balance moves by exactly `reward - spend = 3 - 10`;
the derived balance agrees. -/
lemma bondRun_success_spec (sys : Sys) (nid eid bond_id : Nat) (ot fr : String)
    (bd : BondRec) (hinv : Inv sys.store)
    (hbd : sys.store.getBond bond_id = some bd)
    (hstat : bd.status ≠ "executed") :
    ∃ out sysF,
      cmdBondRunCore sys nid eid bond_id ot false fr = (.ok (some out), sysF)
      ∧ sysF.credits_balance = sys.credits_balance + -10 + 3
      ∧ Inv sysF.store
      ∧ sysF.store.computeCreditsBalance (some eid)
          = sys.credits_balance + -10 + 3 := by
  have hb : (bd.status == "executed") = false := by simpa using hstat
  obtain ⟨st1, e1eq, e1ev, e1it, e1bd, e1ep, e1nw, e1inv⟩ :=
    logEvent_spec sys.store sys.fresh nid eid "bond.run_requested" "Q"
      "user→field" { bond_id := some bond_id } (by rfl) hinv
  unfold cmdBondRunCore
  simp only [hbd, hb, Bool.false_eq_true, if_false, bondRunRequested]
  rw [e1eq]
  simp only []
  obtain ⟨sys2, c2eq, c2ev, c2bal, c2it, c2bd, c2ep, c2nw, c2inv, c2fr, c2nid,
    c2eid⟩ :=
    logCredits_spec { sys with store := st1, fresh := sys.fresh + 1 } nid eid
      (-10) "bond_run_spend" none (some bond_id) none none e1inv
  simp only [] at c2eq c2ev c2bal c2it c2bd c2ep c2nw c2fr
  rw [c2eq]
  simp only [Bool.false_eq_true, if_false]
  have h4inv : Inv ((sys2.store.upsertItem
      (bondOutputItem sys2.fresh nid eid ot bond_id bd)).upsertBond
      (bondExecutedUpdate bd sys2.fresh)) :=
    inv_congr rfl rfl c2inv
  obtain ⟨st4, e4eq, e4ev, e4it, e4bd, e4ep, e4nw, e4inv⟩ :=
    logEvent_spec ((sys2.store.upsertItem
        (bondOutputItem sys2.fresh nid eid ot bond_id bd)).upsertBond
        (bondExecutedUpdate bd sys2.fresh))
      (sys2.fresh + 1) nid eid "bond.executed" "M" "system→field"
      { bond_id := some bond_id, input_item_ids := some bd.input_item_ids,
        output_item_id := some sys2.fresh,
        execution_count := some (bd.execution_count.getD 0 + 1) }
      (by rfl) h4inv
  simp only [bondExecuted]
  rw [e4eq]
  simp only []
  obtain ⟨sys5, c5eq, c5ev, c5bal, c5it, c5bd, c5ep, c5nw, c5inv, c5fr, c5nid,
    c5eid⟩ :=
    logCredits_spec
      (Sys.mk st4 (sys2.fresh + 1 + 1) sys2.credits_balance sys2.network_id
        sys2.episode_id) nid eid
      3 "bond_executed_reward" none (some bond_id) (some sys2.fresh) none e4inv
  simp only [] at c5eq c5ev c5bal c5it c5bd c5ep c5nw c5fr
  rw [c5eq]
  simp only []
  obtain ⟨st6, e6eq, e6ev, e6it, e6bd, e6ep, e6nw, e6inv⟩ :=
    logEvent_spec sys5.store sys5.fresh nid eid "store.commit" "Q"
      "system→field" {} (by rfl) c5inv
  simp only [storeCommit]
  rw [e6eq]
  simp only []
  have hevents : st6.events = sys.store.events ++
      [QDPIEvent.mk sys.fresh nid eid (epCount sys.store eid + 1) "Q"
        "user→field" "bond.run_requested" { bond_id := some bond_id },
      QDPIEvent.mk (sys.fresh + 1) nid eid (epCount st1 eid + 1) "Q"
        "system→field" "credits.delta"
        { delta := some (-10), balance_after := some (sys.credits_balance + -10),
          reason := some "bond_run_spend", bond_id := some bond_id },
      QDPIEvent.mk (sys2.fresh + 1) nid eid
        (epCount ((sys2.store.upsertItem
          (bondOutputItem sys2.fresh nid eid ot bond_id bd)).upsertBond
          (bondExecutedUpdate bd sys2.fresh)) eid + 1)
        "M" "system→field" "bond.executed"
        { bond_id := some bond_id, input_item_ids := some bd.input_item_ids,
          output_item_id := some sys2.fresh,
          execution_count := some (bd.execution_count.getD 0 + 1) },
      QDPIEvent.mk (sys2.fresh + 1 + 1) nid eid (epCount st4 eid + 1) "Q"
        "system→field" "credits.delta"
        { delta := some 3, balance_after := some (sys2.credits_balance + 3),
          reason := some "bond_executed_reward", bond_id := some bond_id,
          output_item_id := some sys2.fresh },
      QDPIEvent.mk sys5.fresh nid eid (epCount sys5.store eid + 1) "Q"
        "system→field" "store.commit" {}] := by
    rw [e6ev, c5ev, e4ev]
    show ((sys2.store.upsertItem _).upsertBond _).events ++ _ ++ _ ++ _ = _
    unfold Store.upsertBond Store.upsertItem
    simp only []
    rw [c2ev, e1ev]
    simp [List.append_assoc]
  refine ⟨sys2.fresh, _, rfl, ?_, ?_, ?_⟩
  · show sys5.credits_balance = sys.credits_balance + -10 + 3
    rw [c5bal, c2bal]
  · show Inv st6
    exact e6inv
  · show st6.computeCreditsBalance (some eid) = sys.credits_balance + -10 + 3
    rw [computeCreditsBalance_append sys.store st6 eid _ hinv e6inv hevents]
    have d1 : (("bond.run_requested" : String) == "credits.delta") = false := by
      decide
    have d3 : (("bond.executed" : String) == "credits.delta") = false := by
      decide
    have d5 : (("store.commit" : String) == "credits.delta") = false := by
      decide
    simp only [List.filter_cons, List.filter_nil, beq_self_eq_true, if_true,
      d1, d3, d5, Bool.false_eq_true, if_false, List.getLast?_concat,
      List.getLast?_cons_cons, List.getLast?_singleton, Option.map_some,
      Option.getD_some]
    show sys2.credits_balance + 3 = sys.credits_balance + -10 + 3
    rw [c2bal]

/-! ## The Holologue workflow -/

set_option maxHeartbeats 1000000 in
/-- `cmd_holologue_run` with fewer than two selected items: exactly one
`holologue.validation_failed` event is appended, the command aborts
(`sys.exit`), no `credits.delta` of any reason is appended, and both the
running and the derived balance are unchanged. -/
lemma holologue_validation_small_spec (sys : Sys) (nid eid : Nat)
    (ids : List Nat) (kind : String) (ff : Bool) (fr : String)
    (hinv : Inv sys.store) (hlen : ids.length < 2) :
    ∃ ev sysF,
      cmdHolologueRunCore sys nid eid ids kind ff fr = (.error .exit, sysF)
      ∧ sysF.store.events = sys.store.events ++ [ev]
      ∧ ev.name = "holologue.validation_failed"
      ∧ ev.refs.reason = some "selection_too_small"
      ∧ ev.episode_id = eid
      ∧ sysF.credits_balance = sys.credits_balance
      ∧ sysF.store.items = sys.store.items
      ∧ Inv sysF.store
      ∧ (∀ e ∈ sysF.store.events, e.name = "credits.delta" → e ∈ sys.store.events)
      ∧ sysF.store.computeCreditsBalance (some eid)
          = sys.store.computeCreditsBalance (some eid) := by
  obtain ⟨st1, e1eq, e1ev, e1it, e1bd, e1ep, e1nw, e1inv⟩ :=
    logEvent_spec sys.store sys.fresh nid eid "holologue.validation_failed" "H"
      "user→field" { reason := some "selection_too_small" } (by rfl) hinv
  unfold cmdHolologueRunCore
  rw [if_pos hlen]
  simp only [holologueValidationFailed]
  rw [e1eq]
  simp only []
  refine ⟨_, _, rfl, e1ev, rfl, rfl, rfl, rfl, e1it, e1inv, ?_, ?_⟩
  · intro e he hname
    rw [e1ev] at he
    rcases List.mem_append.mp he with h | h
    · exact h
    · exfalso
      have heq : e = QDPIEvent.mk sys.fresh nid eid (epCount sys.store eid + 1)
          "H" "user→field" "holologue.validation_failed"
          { reason := some "selection_too_small" } := by
        simpa using h
      rw [heq] at hname
      have hne : ("holologue.validation_failed" : String) ≠ "credits.delta" := by
        decide
      exact hne hname
  · rw [computeCreditsBalance_append sys.store st1 eid _ hinv e1inv e1ev]
    have d1 : (("holologue.validation_failed" : String) == "credits.delta")
        = false := by decide
    simp [d1]

set_option maxHeartbeats 1000000 in
/-- `cmd_holologue_run` with a selected id that resolves to no item (and a
large-enough selection): exactly one `holologue.validation_failed` event with
reason `item_not_found` is appended, the command aborts before any spend, and
both balances are unchanged. -/
lemma holologue_validation_missing_spec (sys : Sys) (nid eid : Nat)
    (ids : List Nat) (kind : String) (ff : Bool) (fr : String) (j : Nat)
    (hinv : Inv sys.store) (hlen : ¬ ids.length < 2)
    (hfind : ids.find? (fun i => (sys.store.getItem i).isNone) = some j) :
    ∃ ev sysF,
      cmdHolologueRunCore sys nid eid ids kind ff fr = (.error .exit, sysF)
      ∧ sysF.store.events = sys.store.events ++ [ev]
      ∧ ev.name = "holologue.validation_failed"
      ∧ ev.refs.reason = some "item_not_found"
      ∧ ev.episode_id = eid
      ∧ sysF.credits_balance = sys.credits_balance
      ∧ sysF.store.items = sys.store.items
      ∧ Inv sysF.store
      ∧ (∀ e ∈ sysF.store.events, e.name = "credits.delta" → e ∈ sys.store.events)
      ∧ sysF.store.computeCreditsBalance (some eid)
          = sys.store.computeCreditsBalance (some eid) := by
  obtain ⟨st1, e1eq, e1ev, e1it, e1bd, e1ep, e1nw, e1inv⟩ :=
    logEvent_spec sys.store sys.fresh nid eid "holologue.validation_failed" "H"
      "user→field" { reason := some "item_not_found" } (by rfl) hinv
  unfold cmdHolologueRunCore
  rw [if_neg hlen]
  simp only [hfind, holologueValidationFailed]
  rw [e1eq]
  simp only []
  refine ⟨_, _, rfl, e1ev, rfl, rfl, rfl, rfl, e1it, e1inv, ?_, ?_⟩
  · intro e he hname
    rw [e1ev] at he
    rcases List.mem_append.mp he with h | h
    · exact h
    · exfalso
      have heq : e = QDPIEvent.mk sys.fresh nid eid (epCount sys.store eid + 1)
          "H" "user→field" "holologue.validation_failed"
          { reason := some "item_not_found" } := by
        simpa using h
      rw [heq] at hname
      have hne : ("holologue.validation_failed" : String) ≠ "credits.delta" := by
        decide
      exact hne hname
  · rw [computeCreditsBalance_append sys.store st1 eid _ hinv e1inv e1ev]
    have d1 : (("holologue.validation_failed" : String) == "credits.delta")
        = false := by decide
    simp [d1]

set_option maxHeartbeats 1000000 in
/-- Forced-failure `cmd_holologue_run` past validation: returns "no output",
leaves both balances where they started, touches no item, and appends
run-requested / spend(-20) / failed / refund(+20) / commit events. -/
lemma holologueRun_fail_spec (sys : Sys) (nid eid : Nat) (ids : List Nat)
    (kind : String) (fr : String) (hinv : Inv sys.store)
    (hlen : ¬ ids.length < 2)
    (hfind : ids.find? (fun i => (sys.store.getItem i).isNone) = none) :
    ∃ sysF,
      cmdHolologueRunCore sys nid eid ids kind true fr = (.ok none, sysF)
      ∧ sysF.credits_balance = sys.credits_balance
      ∧ Inv sysF.store
      ∧ sysF.store.items = sys.store.items
      ∧ (∃ new, sysF.store.events = sys.store.events ++ new
          ∧ (∃ e ∈ new, e.name = "credits.delta" ∧ e.refs.delta = some (-20)
              ∧ e.refs.reason = some "holologue_run_spend")
          ∧ (∃ e ∈ new, e.name = "credits.delta" ∧ e.refs.delta = some 20
              ∧ e.refs.reason = some "holologue_run_refund")
          ∧ (∀ e ∈ new, e.name ≠ "holologue.completed"))
      ∧ sysF.store.computeCreditsBalance (some eid) = sys.credits_balance := by
  obtain ⟨st1, e1eq, e1ev, e1it, e1bd, e1ep, e1nw, e1inv⟩ :=
    logEvent_spec sys.store sys.fresh nid eid "holologue.run_requested" "H"
      "user→field" { selected_item_ids := some ids, artifact_kind := some kind }
      (by rfl) hinv
  unfold cmdHolologueRunCore
  rw [if_neg hlen]
  simp only [hfind, holologueRunRequested]
  rw [e1eq]
  simp only []
  obtain ⟨sys2, c2eq, c2ev, c2bal, c2it, c2bd, c2ep, c2nw, c2inv, c2fr, c2nid,
    c2eid⟩ :=
    logCredits_spec { sys with store := st1, fresh := sys.fresh + 1 } nid eid
      (-20) "holologue_run_spend" none none none (some sys.fresh) e1inv
  simp only [] at c2eq c2ev c2bal c2it c2bd c2ep c2nw c2fr
  rw [c2eq]
  simp only [if_true]
  obtain ⟨st3, e3eq, e3ev, e3it, e3bd, e3ep, e3nw, e3inv⟩ :=
    logEvent_spec sys2.store sys2.fresh nid eid "holologue.failed" "H"
      "system→field" { reason := some fr } (by rfl) c2inv
  simp only [holologueFailed]
  rw [e3eq]
  simp only []
  obtain ⟨sys4, c4eq, c4ev, c4bal, c4it, c4bd, c4ep, c4nw, c4inv, c4fr, c4nid,
    c4eid⟩ :=
    logCredits_spec
      (Sys.mk st3 (sys2.fresh + 1) sys2.credits_balance sys2.network_id
        sys2.episode_id) nid eid
      20 "holologue_run_refund" none none none (some sys.fresh) e3inv
  simp only [] at c4eq c4ev c4bal c4it c4bd c4ep c4nw c4fr
  rw [c4eq]
  simp only []
  obtain ⟨st5, e5eq, e5ev, e5it, e5bd, e5ep, e5nw, e5inv⟩ :=
    logEvent_spec sys4.store sys4.fresh nid eid "store.commit" "Q"
      "system→field" {} (by rfl) c4inv
  simp only [storeCommit]
  rw [e5eq]
  simp only []
  have hevents : st5.events = sys.store.events ++
      [QDPIEvent.mk sys.fresh nid eid (epCount sys.store eid + 1) "H"
        "user→field" "holologue.run_requested"
        { selected_item_ids := some ids, artifact_kind := some kind },
      QDPIEvent.mk (sys.fresh + 1) nid eid (epCount st1 eid + 1) "Q"
        "system→field" "credits.delta"
        { delta := some (-20), balance_after := some (sys.credits_balance + -20),
          reason := some "holologue_run_spend", event_id := some sys.fresh },
      QDPIEvent.mk sys2.fresh nid eid (epCount sys2.store eid + 1) "H"
        "system→field" "holologue.failed" { reason := some fr },
      QDPIEvent.mk (sys2.fresh + 1) nid eid (epCount st3 eid + 1) "Q"
        "system→field" "credits.delta"
        { delta := some 20, balance_after := some (sys2.credits_balance + 20),
          reason := some "holologue_run_refund", event_id := some sys.fresh },
      QDPIEvent.mk sys4.fresh nid eid (epCount sys4.store eid + 1) "Q"
        "system→field" "store.commit" {}] := by
    rw [e5ev, c4ev, e3ev, c2ev, e1ev]
    simp [List.append_assoc]
  refine ⟨_, rfl, ?_, ?_, ?_, ?_, ?_⟩
  · show sys4.credits_balance = sys.credits_balance
    rw [c4bal, c2bal]
    omega
  · show Inv st5
    exact e5inv
  · show st5.items = sys.store.items
    rw [e5it, c4it, e3it, c2it, e1it]
  · refine ⟨_, hevents, ?_, ?_, ?_⟩
    · exact ⟨QDPIEvent.mk (sys.fresh + 1) nid eid (epCount st1 eid + 1) "Q"
        "system→field" "credits.delta"
        { delta := some (-20), balance_after := some (sys.credits_balance + -20),
          reason := some "holologue_run_spend", event_id := some sys.fresh },
        List.mem_cons_of_mem _ (List.mem_cons_self _ _), rfl, rfl, rfl⟩
    · exact ⟨QDPIEvent.mk (sys2.fresh + 1) nid eid (epCount st3 eid + 1) "Q"
        "system→field" "credits.delta"
        { delta := some 20, balance_after := some (sys2.credits_balance + 20),
          reason := some "holologue_run_refund", event_id := some sys.fresh },
        List.mem_cons_of_mem _ (List.mem_cons_of_mem _
          (List.mem_cons_of_mem _ (List.mem_cons_self _ _))), rfl, rfl, rfl⟩
    · intro e he
      simp only [List.mem_cons, List.not_mem_nil, or_false] at he
      rcases he with h | h | h | h | h <;> (rw [h]; simp)
  · show st5.computeCreditsBalance (some eid) = sys.credits_balance
    rw [computeCreditsBalance_append sys.store st5 eid _ hinv e5inv hevents]
    have d1 : (("holologue.run_requested" : String) == "credits.delta") = false := by
      decide
    have d3 : (("holologue.failed" : String) == "credits.delta") = false := by
      decide
    have d5 : (("store.commit" : String) == "credits.delta") = false := by
      decide
    simp only [List.filter_cons, List.filter_nil, beq_self_eq_true, if_true,
      d1, d3, d5, Bool.false_eq_true, if_false, List.getLast?_concat,
      List.getLast?_cons_cons, List.getLast?_singleton, Option.map_some,
      Option.getD_some]
    show sys2.credits_balance + 20 = sys.credits_balance
    rw [c2bal]
    omega

set_option maxHeartbeats 1000000 in
/-- Successful `cmd_holologue_run`: returns the new output item id, the
balance moves by `reward - spend = 5 - 20` (running and derived), and the
output Item — type `"H"` — carries a holologue provenance whose
`holologue_event_id` is the id of the `holologue.completed` event actually
appended during the run. -/
lemma holologueRun_success_spec (sys : Sys) (nid eid : Nat) (ids : List Nat)
    (kind fr : String) (hinv : Inv sys.store)
    (hlen : ¬ ids.length < 2)
    (hfind : ids.find? (fun i => (sys.store.getItem i).isNone) = none) :
    ∃ out sysF new evC,
      cmdHolologueRunCore sys nid eid ids kind false fr = (.ok (some out), sysF)
      ∧ sysF.credits_balance = sys.credits_balance + -20 + 5
      ∧ Inv sysF.store
      ∧ sysF.store.computeCreditsBalance (some eid)
          = sys.credits_balance + -20 + 5
      ∧ sysF.store.events = sys.store.events ++ new
      ∧ new.filter (fun e => e.name == "holologue.completed") = [evC]
      ∧ evC.episode_id = eid
      ∧ evC.refs.output_item_id = some out
      ∧ evC.refs.selected_item_ids = some ids
      ∧ evC.refs.artifact_kind = some kind
      ∧ evC ∈ sysF.store.events
      ∧ sysF.store.getItem out
          = some (holoOutputItem out nid eid evC.id ids kind) := by
  obtain ⟨st1, e1eq, e1ev, e1it, e1bd, e1ep, e1nw, e1inv⟩ :=
    logEvent_spec sys.store sys.fresh nid eid "holologue.run_requested" "H"
      "user→field" { selected_item_ids := some ids, artifact_kind := some kind }
      (by rfl) hinv
  unfold cmdHolologueRunCore
  rw [if_neg hlen]
  simp only [hfind, holologueRunRequested]
  rw [e1eq]
  simp only []
  obtain ⟨sys2, c2eq, c2ev, c2bal, c2it, c2bd, c2ep, c2nw, c2inv, c2fr, c2nid,
    c2eid⟩ :=
    logCredits_spec { sys with store := st1, fresh := sys.fresh + 1 } nid eid
      (-20) "holologue_run_spend" none none none (some sys.fresh) e1inv
  simp only [] at c2eq c2ev c2bal c2it c2bd c2ep c2nw c2fr
  rw [c2eq]
  simp only [Bool.false_eq_true, if_false]
  obtain ⟨st3, e3eq, e3ev, e3it, e3bd, e3ep, e3nw, e3inv⟩ :=
    logEvent_spec sys2.store (sys2.fresh + 1) nid eid "holologue.completed" "H"
      "system→field"
      { selected_item_ids := some ids, output_item_id := some sys2.fresh,
        artifact_kind := some kind } (by rfl) c2inv
  simp only [holologueCompleted]
  rw [e3eq]
  simp only []
  have h4inv : Inv (st3.upsertItem
      (holoOutputItem sys2.fresh nid eid (sys2.fresh + 1) ids kind)) :=
    inv_congr rfl rfl e3inv
  obtain ⟨sys4, c4eq, c4ev, c4bal, c4it, c4bd, c4ep, c4nw, c4inv, c4fr, c4nid,
    c4eid⟩ :=
    logCredits_spec
      (Sys.mk (st3.upsertItem
          (holoOutputItem sys2.fresh nid eid (sys2.fresh + 1) ids kind))
        (sys2.fresh + 1 + 1) sys2.credits_balance sys2.network_id
        sys2.episode_id) nid eid
      5 "holologue_completed_reward" none none (some sys2.fresh) none h4inv
  simp only [] at c4eq c4ev c4bal c4it c4bd c4ep c4nw c4fr
  rw [c4eq]
  simp only []
  obtain ⟨st5, e5eq, e5ev, e5it, e5bd, e5ep, e5nw, e5inv⟩ :=
    logEvent_spec sys4.store sys4.fresh nid eid "bond.proposals.presented" "Q"
      "system→field" { output_item_id := some sys2.fresh } (by rfl) c4inv
  simp only [bondProposalsPresented]
  rw [e5eq]
  simp only []
  obtain ⟨st6, e6eq, e6ev, e6it, e6bd, e6ep, e6nw, e6inv⟩ :=
    logEvent_spec st5 (sys4.fresh + 1) nid eid "store.commit" "Q"
      "system→field" {} (by rfl) e5inv
  simp only [storeCommit]
  rw [e6eq]
  simp only []
  have hevents : st6.events = sys.store.events ++
      [QDPIEvent.mk sys.fresh nid eid (epCount sys.store eid + 1) "H"
        "user→field" "holologue.run_requested"
        { selected_item_ids := some ids, artifact_kind := some kind },
      QDPIEvent.mk (sys.fresh + 1) nid eid (epCount st1 eid + 1) "Q"
        "system→field" "credits.delta"
        { delta := some (-20), balance_after := some (sys.credits_balance + -20),
          reason := some "holologue_run_spend", event_id := some sys.fresh },
      QDPIEvent.mk (sys2.fresh + 1) nid eid (epCount sys2.store eid + 1) "H"
        "system→field" "holologue.completed"
        { selected_item_ids := some ids, output_item_id := some sys2.fresh,
          artifact_kind := some kind },
      QDPIEvent.mk (sys2.fresh + 1 + 1) nid eid
        (epCount (st3.upsertItem
          (holoOutputItem sys2.fresh nid eid (sys2.fresh + 1) ids kind)) eid + 1)
        "Q" "system→field" "credits.delta"
        { delta := some 5, balance_after := some (sys2.credits_balance + 5),
          reason := some "holologue_completed_reward",
          output_item_id := some sys2.fresh },
      QDPIEvent.mk sys4.fresh nid eid (epCount sys4.store eid + 1) "Q"
        "system→field" "bond.proposals.presented"
        { output_item_id := some sys2.fresh },
      QDPIEvent.mk (sys4.fresh + 1) nid eid (epCount st5 eid + 1) "Q"
        "system→field" "store.commit" {}] := by
    rw [e6ev, e5ev, c4ev]
    show (Store.upsertItem _ _).events ++ _ ++ _ ++ _ = _
    unfold Store.upsertItem
    simp only []
    rw [e3ev, c2ev, e1ev]
    simp [List.append_assoc]
  have hitems : st6.items = sys.store.items ++
      [holoOutputItem sys2.fresh nid eid (sys2.fresh + 1) ids kind] := by
    rw [e6it, e5it, c4it]
    show (Store.upsertItem _ _).items = _
    unfold Store.upsertItem
    simp only []
    rw [e3it, c2it, e1it]
  refine ⟨sys2.fresh, _,
    [QDPIEvent.mk sys.fresh nid eid (epCount sys.store eid + 1) "H"
      "user→field" "holologue.run_requested"
      { selected_item_ids := some ids, artifact_kind := some kind },
    QDPIEvent.mk (sys.fresh + 1) nid eid (epCount st1 eid + 1) "Q"
      "system→field" "credits.delta"
      { delta := some (-20), balance_after := some (sys.credits_balance + -20),
        reason := some "holologue_run_spend", event_id := some sys.fresh },
    QDPIEvent.mk (sys2.fresh + 1) nid eid (epCount sys2.store eid + 1) "H"
      "system→field" "holologue.completed"
      { selected_item_ids := some ids, output_item_id := some sys2.fresh,
        artifact_kind := some kind },
    QDPIEvent.mk (sys2.fresh + 1 + 1) nid eid
      (epCount (st3.upsertItem
        (holoOutputItem sys2.fresh nid eid (sys2.fresh + 1) ids kind)) eid + 1)
      "Q" "system→field" "credits.delta"
      { delta := some 5, balance_after := some (sys2.credits_balance + 5),
        reason := some "holologue_completed_reward",
        output_item_id := some sys2.fresh },
    QDPIEvent.mk sys4.fresh nid eid (epCount sys4.store eid + 1) "Q"
      "system→field" "bond.proposals.presented"
      { output_item_id := some sys2.fresh },
    QDPIEvent.mk (sys4.fresh + 1) nid eid (epCount st5 eid + 1) "Q"
      "system→field" "store.commit" {}],
    QDPIEvent.mk (sys2.fresh + 1) nid eid (epCount sys2.store eid + 1) "H"
      "system→field" "holologue.completed"
      { selected_item_ids := some ids, output_item_id := some sys2.fresh,
        artifact_kind := some kind },
    rfl, ?_, ?_, ?_, hevents, ?_, rfl, rfl, rfl, rfl, ?_, ?_⟩
  · show sys4.credits_balance = sys.credits_balance + -20 + 5
    rw [c4bal, c2bal]
  · show Inv st6
    exact e6inv
  · show st6.computeCreditsBalance (some eid) = sys.credits_balance + -20 + 5
    rw [computeCreditsBalance_append sys.store st6 eid _ hinv e6inv hevents]
    have d1 : (("holologue.run_requested" : String) == "credits.delta") = false := by
      decide
    have d3 : (("holologue.completed" : String) == "credits.delta") = false := by
      decide
    have d5 : (("bond.proposals.presented" : String) == "credits.delta") = false := by
      decide
    have d6 : (("store.commit" : String) == "credits.delta") = false := by
      decide
    simp only [List.filter_cons, List.filter_nil, beq_self_eq_true, if_true,
      d1, d3, d5, d6, Bool.false_eq_true, if_false, List.getLast?_concat,
      List.getLast?_cons_cons, List.getLast?_singleton, Option.map_some,
      Option.getD_some]
    show sys2.credits_balance + 5 = sys.credits_balance + -20 + 5
    rw [c2bal]
  · have f1 : (("holologue.run_requested" : String) == "holologue.completed")
        = false := by decide
    have f2 : (("credits.delta" : String) == "holologue.completed")
        = false := by decide
    have f5 : (("bond.proposals.presented" : String) == "holologue.completed")
        = false := by decide
    have f6 : (("store.commit" : String) == "holologue.completed")
        = false := by decide
    simp only [List.filter_cons, List.filter_nil, beq_self_eq_true, if_true,
      f1, f2, f5, f6, Bool.false_eq_true, if_false]
  · rw [hevents]
    refine List.mem_append.mpr (Or.inr ?_)
    exact List.mem_cons_of_mem _ (List.mem_cons_of_mem _
      (List.mem_cons_self _ _))
  · show st6.getItem sys2.fresh = _
    unfold Store.getItem
    rw [hitems, getLatest_eq_lastWriteWins]
    exact lastWriteWins_concat_self (fun r => r.id) sys.store.items
      (holoOutputItem sys2.fresh nid eid (sys2.fresh + 1) ids kind)

/-! ## From the command wrappers (`_require_init` + context loading) to the
command bodies -/

lemma cmdBondRun_eq (sys0 : Sys) (nid eid bond_id : Nat) (ot : String)
    (ff : Bool) (fr : String) (hini : sys0.store.isInitialized = true)
    (hn : (loadContext sys0).network_id = some nid)
    (he : (loadContext sys0).episode_id = some eid) :
    cmdBondRun sys0 bond_id ot ff fr
      = cmdBondRunCore (loadContext sys0) nid eid bond_id ot ff fr := by
  unfold cmdBondRun
  rw [if_pos hini]
  simp only [hn, he]

lemma cmdHolologueRun_eq (sys0 : Sys) (nid eid : Nat) (ids : List Nat)
    (kind : String) (ff : Bool) (fr : String)
    (hini : sys0.store.isInitialized = true)
    (hn : (loadContext sys0).network_id = some nid)
    (he : (loadContext sys0).episode_id = some eid) :
    cmdHolologueRun sys0 ids kind ff fr
      = cmdHolologueRunCore (loadContext sys0) nid eid ids kind ff fr := by
  unfold cmdHolologueRun
  rw [if_pos hini]
  simp only [hn, he]

lemma cmdItemArchive_eq (sys0 : Sys) (nid eid item_id : Nat)
    (hini : sys0.store.isInitialized = true)
    (hn : (loadContext sys0).network_id = some nid)
    (he : (loadContext sys0).episode_id = some eid) :
    cmdItemArchive sys0 item_id
      = cmdItemArchiveCore (loadContext sys0) nid eid item_id := by
  unfold cmdItemArchive
  rw [if_pos hini]
  simp only [hn, he]

/-! ## Claim C2: credits arithmetic of the Bond and Holologue workflows -/

/-- **C2.** For every `cmd_bond_run` / `cmd_holologue_run` that passes its
pre-run checks: on the success path the balance afterwards (both the running
balance and the derived `compute_credits_balance`) equals the balance before
plus `reward - spend` (bond `3 - 10`, holologue `5 - 20`); on the
forced-failure path the balance afterwards equals the balance before exactly,
and the appended refund `credits.delta` has the same magnitude as the spend
(`10` for bonds, `20` for holologues). -/
theorem claim_C2 (sys0 : Sys) (nid eid : Nat)
    (hinv : Inv sys0.store) (h0 : sys0.episode_id = none)
    (hini : sys0.store.isInitialized = true)
    (hn : (loadContext sys0).network_id = some nid)
    (he : (loadContext sys0).episode_id = some eid) :
    (∀ bond_id ot fr bd, sys0.store.getBond bond_id = some bd →
        bd.status ≠ "executed" →
        (cmdBondRun sys0 bond_id ot false fr).2.credits_balance
            = sys0.store.computeCreditsBalance (some eid) + 3 - 10
          ∧ (cmdBondRun sys0 bond_id ot false fr).2.store.computeCreditsBalance
              (some eid) = sys0.store.computeCreditsBalance (some eid) + 3 - 10)
    ∧ (∀ bond_id ot fr bd, sys0.store.getBond bond_id = some bd →
        bd.status ≠ "executed" →
        (cmdBondRun sys0 bond_id ot true fr).2.credits_balance
            = sys0.store.computeCreditsBalance (some eid)
          ∧ (cmdBondRun sys0 bond_id ot true fr).2.store.computeCreditsBalance
              (some eid) = sys0.store.computeCreditsBalance (some eid)
          ∧ ∃ spend refund : QDPIEvent,
              spend ∈ (cmdBondRun sys0 bond_id ot true fr).2.store.events
              ∧ refund ∈ (cmdBondRun sys0 bond_id ot true fr).2.store.events
              ∧ spend.name = "credits.delta" ∧ spend.refs.delta = some (-10)
              ∧ refund.name = "credits.delta" ∧ refund.refs.delta = some 10)
    ∧ (∀ ids kind fr, ¬ ids.length < 2 →
        ids.find? (fun i => (sys0.store.getItem i).isNone) = none →
        (cmdHolologueRun sys0 ids kind false fr).2.credits_balance
            = sys0.store.computeCreditsBalance (some eid) + 5 - 20
          ∧ (cmdHolologueRun sys0 ids kind false fr).2.store.computeCreditsBalance
              (some eid) = sys0.store.computeCreditsBalance (some eid) + 5 - 20)
    ∧ (∀ ids kind fr, ¬ ids.length < 2 →
        ids.find? (fun i => (sys0.store.getItem i).isNone) = none →
        (cmdHolologueRun sys0 ids kind true fr).2.credits_balance
            = sys0.store.computeCreditsBalance (some eid)
          ∧ (cmdHolologueRun sys0 ids kind true fr).2.store.computeCreditsBalance
              (some eid) = sys0.store.computeCreditsBalance (some eid)
          ∧ ∃ spend refund : QDPIEvent,
              spend ∈ (cmdHolologueRun sys0 ids kind true fr).2.store.events
              ∧ refund ∈ (cmdHolologueRun sys0 ids kind true fr).2.store.events
              ∧ spend.name = "credits.delta" ∧ spend.refs.delta = some (-20)
              ∧ refund.name = "credits.delta" ∧ refund.refs.delta = some 20) := by
  obtain ⟨hst, hfr0, hbal⟩ := loadContext_spec sys0 h0 eid he
  have hinv2 : Inv (loadContext sys0).store := by rw [hst]; exact hinv
  refine ⟨?_, ?_, ?_, ?_⟩
  · intro bond_id ot fr bd hbd hstat
    obtain ⟨out, sysF, heq, hb, hiF, hc⟩ :=
      bondRun_success_spec (loadContext sys0) nid eid bond_id ot fr bd hinv2
        (by rw [hst]; exact hbd) hstat
    rw [cmdBondRun_eq sys0 nid eid bond_id ot false fr hini hn he, heq]
    constructor
    · show sysF.credits_balance = _
      rw [hb, hbal]
      omega
    · show sysF.store.computeCreditsBalance (some eid) = _
      rw [hc, hbal]
      omega
  · intro bond_id ot fr bd hbd hstat
    obtain ⟨sysF, heq, hb, hiF, hitems, hbonds,
      ⟨e1, e2, e3, e4, e5, hev, h1n, h1e, h2n, h2e, h2d, h2r, h3n, h3e,
        h4n, h4e, h4d, h4r, h5n, h5e⟩, hc⟩ :=
      bondRun_fail_spec (loadContext sys0) nid eid bond_id ot fr bd hinv2
        (by rw [hst]; exact hbd) hstat
    rw [cmdBondRun_eq sys0 nid eid bond_id ot true fr hini hn he, heq]
    refine ⟨?_, ?_, e2, e4, ?_, ?_, h2n, h2d, h4n, h4d⟩
    · show sysF.credits_balance = _
      rw [hb, hbal]
    · show sysF.store.computeCreditsBalance (some eid) = _
      rw [hc, hbal]
    · show e2 ∈ sysF.store.events
      rw [hev]
      simp
    · show e4 ∈ sysF.store.events
      rw [hev]
      simp
  · intro ids kind fr hlen hfind
    obtain ⟨out, sysF, new, evC, heq, hb, hiF, hc, hev, hfil, hepi, houtr,
      hsel, hkind, hmem, hitem⟩ :=
      holologueRun_success_spec (loadContext sys0) nid eid ids kind fr hinv2
        hlen (by rw [hst]; exact hfind)
    rw [cmdHolologueRun_eq sys0 nid eid ids kind false fr hini hn he, heq]
    constructor
    · show sysF.credits_balance = _
      rw [hb, hbal]
      omega
    · show sysF.store.computeCreditsBalance (some eid) = _
      rw [hc, hbal]
      omega
  · intro ids kind fr hlen hfind
    obtain ⟨sysF, heq, hb, hiF, hitems,
      ⟨new, hev, ⟨sp, hspm, hspn, hspd, hspr⟩, ⟨rf, hrfm, hrfn, hrfd, hrfr⟩,
        hnoc⟩, hc⟩ :=
      holologueRun_fail_spec (loadContext sys0) nid eid ids kind fr hinv2
        hlen (by rw [hst]; exact hfind)
    rw [cmdHolologueRun_eq sys0 nid eid ids kind true fr hini hn he, heq]
    refine ⟨?_, ?_, sp, rf, ?_, ?_, hspn, hspd, hrfn, hrfd⟩
    · show sysF.credits_balance = _
      rw [hb, hbal]
    · show sysF.store.computeCreditsBalance (some eid) = _
      rw [hc, hbal]
    · show sp ∈ sysF.store.events
      rw [hev]
      exact List.mem_append.mpr (Or.inr hspm)
    · show rf ∈ sysF.store.events
      rw [hev]
      exact List.mem_append.mpr (Or.inr hrfm)

theorem claim_C2_witness :
    (wSys.store.isInitialized = true
      ∧ (loadContext wSys).network_id = some 1
      ∧ (loadContext wSys).episode_id = some 2
      ∧ wSys.store.getBond 5 = some wBond5
      ∧ wBond5.status ≠ "executed")
    ∧ (cmdBondRun wSys 5 "M" false "x").2.credits_balance
          = wSys.store.computeCreditsBalance (some 2) + 3 - 10
    ∧ (cmdBondRun wSys 5 "M" false "x").2.store.computeCreditsBalance (some 2)
          = wSys.store.computeCreditsBalance (some 2) + 3 - 10 := by
  refine ⟨⟨by decide, by decide, by decide, by decide, by decide⟩, ?_⟩
  exact (claim_C2 wSys 1 2 wStore_inv rfl (by decide) (by decide)
    (by decide)).1 5 "M" "x" wBond5 (by decide) (by decide)

/-! ## Claim C5: holologue validation failures abort before any spend -/

/-- **C5.** Every `cmd_holologue_run` call with fewer than two selected item
ids, or with a selected id that resolves to no item, logs exactly one
`holologue.validation_failed` event and aborts before any spend: the only new
event is the validation failure, no `credits.delta` of any reason is appended,
and both the running and the derived balance are unchanged. -/
theorem claim_C5 (sys0 : Sys) (nid eid : Nat)
    (hinv : Inv sys0.store) (h0 : sys0.episode_id = none)
    (hini : sys0.store.isInitialized = true)
    (hn : (loadContext sys0).network_id = some nid)
    (he : (loadContext sys0).episode_id = some eid) :
    ∀ ids kind ff fr,
      (ids.length < 2 ∨ ∃ j ∈ ids, sys0.store.getItem j = none) →
      ∃ ev sysF,
        cmdHolologueRun sys0 ids kind ff fr = (.error .exit, sysF)
        ∧ sysF.store.events = sys0.store.events ++ [ev]
        ∧ ev.name = "holologue.validation_failed"
        ∧ ev.episode_id = eid
        ∧ (∀ e ∈ sysF.store.events, e.name = "credits.delta"
            → e ∈ sys0.store.events)
        ∧ sysF.credits_balance = (loadContext sys0).credits_balance
        ∧ sysF.store.computeCreditsBalance (some eid)
            = sys0.store.computeCreditsBalance (some eid) := by
  intro ids kind ff fr hbad
  obtain ⟨hst, hfr0, hbal⟩ := loadContext_spec sys0 h0 eid he
  have hinv2 : Inv (loadContext sys0).store := by rw [hst]; exact hinv
  rw [cmdHolologueRun_eq sys0 nid eid ids kind ff fr hini hn he]
  by_cases hlen : ids.length < 2
  · obtain ⟨ev, sysF, heq, hev, hname, hreason, hep, hb, hit, hiF, hnocred,
      hcomp⟩ := holologue_validation_small_spec (loadContext sys0) nid eid
        ids kind ff fr hinv2 hlen
    rw [hst] at hev hnocred hcomp
    exact ⟨ev, sysF, heq, hev, hname, hep, hnocred, hb, hcomp⟩
  · have hmiss : ∃ j ∈ ids, sys0.store.getItem j = none :=
      hbad.resolve_left hlen
    have hsome : ∃ j, ids.find?
        (fun i => ((loadContext sys0).store.getItem i).isNone) = some j := by
      rw [← Option.isSome_iff_exists]
      rw [List.find?_isSome]
      obtain ⟨j, hj, hjn⟩ := hmiss
      exact ⟨j, hj, by rw [hst, hjn]; rfl⟩
    obtain ⟨j, hfind⟩ := hsome
    obtain ⟨ev, sysF, heq, hev, hname, hreason, hep, hb, hit, hiF, hnocred,
      hcomp⟩ := holologue_validation_missing_spec (loadContext sys0) nid eid
        ids kind ff fr j hinv2 hlen hfind
    rw [hst] at hev hnocred hcomp
    exact ⟨ev, sysF, heq, hev, hname, hep, hnocred, hb, hcomp⟩

theorem claim_C5_witness :
    (([3] : List Nat).length < 2
      ∨ ∃ j ∈ ([3] : List Nat), wSys.store.getItem j = none)
    ∧ ∃ ev sysF,
        cmdHolologueRun wSys [3] "summary" false "x" = (.error .exit, sysF)
        ∧ sysF.store.events = wSys.store.events ++ [ev]
        ∧ ev.name = "holologue.validation_failed"
        ∧ ev.episode_id = 2
        ∧ (∀ e ∈ sysF.store.events, e.name = "credits.delta"
            → e ∈ wSys.store.events)
        ∧ sysF.credits_balance = (loadContext wSys).credits_balance
        ∧ sysF.store.computeCreditsBalance (some 2)
            = wSys.store.computeCreditsBalance (some 2) := by
  refine ⟨Or.inl (by decide), ?_⟩
  exact claim_C5 wSys 1 2 wStore_inv rfl (by decide) (by decide) (by decide)
    [3] "summary" false "x" (Or.inl (by decide))

/-! ## Claim C6: the holologue output item references the persisted
`holologue.completed` event -/

/-- **C6.** Every successful `cmd_holologue_run` appends exactly one
`holologue.completed` event, and the output Item has type `"H"` and a
holologue provenance whose `holologue_event_id` is the id of that actually
appended event (not a pre-allocated placeholder), with `selected_item_ids` and
`artifact_kind` equal to the run's inputs. -/
theorem claim_C6 (sys0 : Sys) (nid eid : Nat)
    (hinv : Inv sys0.store) (h0 : sys0.episode_id = none)
    (hini : sys0.store.isInitialized = true)
    (hn : (loadContext sys0).network_id = some nid)
    (he : (loadContext sys0).episode_id = some eid)
    (ids : List Nat) (kind fr : String)
    (hlen : ¬ ids.length < 2)
    (hfind : ids.find? (fun i => (sys0.store.getItem i).isNone) = none) :
    ∃ out sysF new evC item,
      cmdHolologueRun sys0 ids kind false fr = (.ok (some out), sysF)
      ∧ sysF.store.events = sys0.store.events ++ new
      ∧ new.filter (fun e => e.name == "holologue.completed") = [evC]
      ∧ evC ∈ sysF.store.events
      ∧ evC.refs.selected_item_ids = some ids
      ∧ evC.refs.artifact_kind = some kind
      ∧ evC.refs.output_item_id = some out
      ∧ sysF.store.getItem out = some item
      ∧ item.type = "H"
      ∧ item.provenance = .holologue evC.id ids kind := by
  obtain ⟨hst, hfr0, hbal⟩ := loadContext_spec sys0 h0 eid he
  have hinv2 : Inv (loadContext sys0).store := by rw [hst]; exact hinv
  rw [cmdHolologueRun_eq sys0 nid eid ids kind false fr hini hn he]
  obtain ⟨out, sysF, new, evC, heq, hb, hiF, hc, hev, hfil, hepi, houtr,
    hsel, hkind, hmem, hitem⟩ :=
    holologueRun_success_spec (loadContext sys0) nid eid ids kind fr hinv2
      hlen (by rw [hst]; exact hfind)
  rw [hst] at hev
  exact ⟨out, sysF, new, evC, holoOutputItem out nid eid evC.id ids kind,
    heq, hev, hfil, hmem, hsel, hkind, houtr, hitem, rfl, rfl⟩

theorem claim_C6_witness :
    ((¬ ([3, 4] : List Nat).length < 2)
      ∧ ([3, 4] : List Nat).find?
          (fun i => (wSys.store.getItem i).isNone) = none)
    ∧ ∃ out sysF new evC item,
        cmdHolologueRun wSys [3, 4] "summary" false "x" = (.ok (some out), sysF)
        ∧ sysF.store.events = wSys.store.events ++ new
        ∧ new.filter (fun e => e.name == "holologue.completed") = [evC]
        ∧ evC ∈ sysF.store.events
        ∧ evC.refs.selected_item_ids = some [3, 4]
        ∧ evC.refs.artifact_kind = some "summary"
        ∧ evC.refs.output_item_id = some out
        ∧ sysF.store.getItem out = some item
        ∧ item.type = "H"
        ∧ item.provenance = .holologue evC.id [3, 4] "summary" := by
  refine ⟨⟨by decide, by decide⟩, ?_⟩
  exact claim_C6 wSys 1 2 wStore_inv rfl (by decide) (by decide) (by decide)
    [3, 4] "summary" "x" (by decide) (by decide)

/-! ## Claim C7: frame effects of a forced-failure bond run -/

/-- **C7.** After a forced-failure `cmd_bond_run` on a draft bond, the Bond
snapshot still has status `"draft"`, has `last_error` set to the failure info
(message and code `FORCED_FAILURE`), keeps `execution_count` and the absent
`output_item_id` unchanged, no Item names that bond in its provenance, and a
`bond.execution_failed` event and a refund `credits.delta` are appended. -/
theorem claim_C7 (sys0 : Sys) (nid eid : Nat)
    (hinv : Inv sys0.store) (h0 : sys0.episode_id = none)
    (hini : sys0.store.isInitialized = true)
    (hn : (loadContext sys0).network_id = some nid)
    (he : (loadContext sys0).episode_id = some eid)
    (bond_id : Nat) (ot fr : String) (bd : BondRec)
    (hbd : sys0.store.getBond bond_id = some bd)
    (hstat : bd.status = "draft")
    (hout : bd.output_item_id = none)
    (hnoitem : ∀ it ∈ sys0.store.items,
      provenanceBondId it.provenance ≠ some bond_id) :
    ∃ sysF bdF,
      cmdBondRun sys0 bond_id ot true fr = (.ok none, sysF)
      ∧ sysF.store.getBond bond_id = some bdF
      ∧ bdF.status = "draft"
      ∧ bdF.last_error = some ⟨fr, some "FORCED_FAILURE"⟩
      ∧ bdF.execution_count = bd.execution_count
      ∧ bdF.output_item_id = none
      ∧ sysF.store.items = sys0.store.items
      ∧ (∀ it ∈ sysF.store.items,
          provenanceBondId it.provenance ≠ some bond_id)
      ∧ (∃ e ∈ sysF.store.events, e.name = "bond.execution_failed")
      ∧ (∃ e ∈ sysF.store.events, e.name = "credits.delta"
          ∧ e.refs.delta = some 10
          ∧ e.refs.reason = some "bond_run_refund") := by
  obtain ⟨hst, hfr0, hbal⟩ := loadContext_spec sys0 h0 eid he
  have hinv2 : Inv (loadContext sys0).store := by rw [hst]; exact hinv
  have hstat2 : bd.status ≠ "executed" := by rw [hstat]; decide
  obtain ⟨sysF, heq, hb, hiF, hitems, hbonds,
    ⟨e1, e2, e3, e4, e5, hev, h1n, h1e, h2n, h2e, h2d, h2r, h3n, h3e,
      h4n, h4e, h4d, h4r, h5n, h5e⟩, hc⟩ :=
    bondRun_fail_spec (loadContext sys0) nid eid bond_id ot fr bd hinv2
      (by rw [hst]; exact hbd) hstat2
  rw [hst] at hitems hbonds
  have hid : (bondFailedUpdate bd fr).id = bond_id := by
    show bd.id = bond_id
    exact getLatest_id _ _ _ _ hbd
  have hgb : sysF.store.getBond bond_id = some (bondFailedUpdate bd fr) := by
    unfold Store.getBond
    rw [hbonds, getLatest_eq_lastWriteWins, ← hid]
    exact lastWriteWins_concat_self _ _ _
  rw [cmdBondRun_eq sys0 nid eid bond_id ot true fr hini hn he, heq]
  refine ⟨sysF, bondFailedUpdate bd fr, rfl, hgb, hstat, rfl, rfl, hout,
    hitems, ?_, ⟨e3, ?_, h3n⟩, ⟨e4, ?_, h4n, h4d, h4r⟩⟩
  · intro it hit
    rw [hitems] at hit
    exact hnoitem it hit
  · rw [hev]
    simp
  · rw [hev]
    simp

theorem claim_C7_witness :
    (wSys.store.getBond 5 = some wBond5
      ∧ wBond5.status = "draft"
      ∧ wBond5.output_item_id = none
      ∧ ∀ it ∈ wSys.store.items, provenanceBondId it.provenance ≠ some 5)
    ∧ ∃ sysF bdF,
        cmdBondRun wSys 5 "M" true "boom" = (.ok none, sysF)
        ∧ sysF.store.getBond 5 = some bdF
        ∧ bdF.status = "draft"
        ∧ bdF.last_error = some ⟨"boom", some "FORCED_FAILURE"⟩
        ∧ bdF.execution_count = wBond5.execution_count
        ∧ bdF.output_item_id = none
        ∧ sysF.store.items = wSys.store.items
        ∧ (∀ it ∈ sysF.store.items, provenanceBondId it.provenance ≠ some 5)
        ∧ (∃ e ∈ sysF.store.events, e.name = "bond.execution_failed")
        ∧ (∃ e ∈ sysF.store.events, e.name = "credits.delta"
            ∧ e.refs.delta = some 10
            ∧ e.refs.reason = some "bond_run_refund") := by
  refine ⟨⟨by decide, by decide, by decide, by decide⟩, ?_⟩
  exact claim_C7 wSys 1 2 wStore_inv rfl (by decide) (by decide) (by decide)
    5 "M" "boom" wBond5 (by decide) (by decide) (by decide) (by decide)

/-! ## Claim C10: the `refs=` keyword at the checkpoint call sites -/

/-- **C10.** `store_commit` accepts only `network_id` and `episode_id`, yet the
checkpoint call sites pass `refs=`; so `_save_episode_curation` and every
`cmd_item_archive` call that reaches its checkpoint raise `TypeError` — and
since the snapshot upsert precedes the checkpoint, the entity mutation
persists (and is what `get` returns) while no `store.commit` event is logged:
the operation is not atomic on this error. -/
theorem claim_C10 (sys0 : Sys) (nid eid : Nat)
    (h0 : sys0.episode_id = none)
    (hini : sys0.store.isInitialized = true)
    (hn : (loadContext sys0).network_id = some nid)
    (he : (loadContext sys0).episode_id = some eid) :
    ("refs" ∈ commitCallKwargs ∧ "refs" ∉ storeCommitParams)
    ∧ (∀ (sys : Sys) (nid2 eid2 : Nat) (ep : EpisodeRec), ∃ msg sysF,
        saveEpisodeCuration sys nid2 eid2 ep = (.error (.typeError msg), sysF)
        ∧ sysF.store.episodes = sys.store.episodes ++ [ep]
        ∧ sysF.store.events = sys.store.events)
    ∧ (∀ item_id it, sys0.store.getItem item_id = some it →
        it.archived_at = none →
        ∃ msg sysF,
          cmdItemArchive sys0 item_id = (.error (.typeError msg), sysF)
          ∧ sysF.store.items = sys0.store.items
              ++ [{ it with archived_at := some 0 }]
          ∧ sysF.store.getItem item_id = some { it with archived_at := some 0 }
          ∧ sysF.store.events = sys0.store.events) := by
  have hkw : (commitCallKwargs.all fun k => storeCommitParams.contains k)
      = false := by decide
  refine ⟨⟨by decide, by decide⟩, ?_, ?_⟩
  · intro sys nid2 eid2 ep
    refine ⟨"store_commit got an unexpected keyword argument refs",
      { sys with store := sys.store.upsertEpisode ep }, ?_, ?_, ?_⟩
    · unfold saveEpisodeCuration
      rw [hkw]
      simp only [Bool.false_eq_true, if_false]
    · show (sys.store.upsertEpisode ep).episodes = _
      rfl
    · show (sys.store.upsertEpisode ep).events = _
      rfl
  · intro item_id it hit harch
    obtain ⟨hst, hfr0, hbal⟩ := loadContext_spec sys0 h0 eid he
    have hit2 : (loadContext sys0).store.getItem item_id = some it := by
      rw [hst]; exact hit
    have hid : ({ it with archived_at := some (0 : Nat) } : ItemRec).id
        = item_id := by
      show it.id = item_id
      exact getLatest_id _ _ _ _ hit
    rw [cmdItemArchive_eq sys0 nid eid item_id hini hn he]
    refine ⟨"store_commit got an unexpected keyword argument refs",
      { loadContext sys0 with store := (loadContext sys0).store.upsertItem { it with archived_at := some 0 } }, ?_, ?_, ?_, ?_⟩
    · unfold cmdItemArchiveCore
      simp only [hit2, harch, Option.isSome_none, Bool.false_eq_true, if_false]
      rw [hkw]
      simp only [Bool.false_eq_true, if_false]
    · show ((loadContext sys0).store.upsertItem _).items = _
      unfold Store.upsertItem
      simp only []
      rw [hst]
    · show ((loadContext sys0).store.upsertItem _).getItem item_id = _
      unfold Store.getItem Store.upsertItem
      simp only []
      rw [getLatest_eq_lastWriteWins, ← hid]
      exact lastWriteWins_concat_self _ _ _
    · show ((loadContext sys0).store.upsertItem _).events = _
      unfold Store.upsertItem
      simp only []
      exact congrArg Store.events hst

theorem claim_C10_witness :
    (wSys.store.getItem 3 = some wItem3 ∧ wItem3.archived_at = none)
    ∧ ("refs" ∈ commitCallKwargs ∧ "refs" ∉ storeCommitParams)
    ∧ ∃ msg sysF,
        cmdItemArchive wSys 3 = (.error (.typeError msg), sysF)
        ∧ sysF.store.items = wSys.store.items
            ++ [{ wItem3 with archived_at := some 0 }]
        ∧ sysF.store.getItem 3 = some { wItem3 with archived_at := some 0 }
        ∧ sysF.store.events = wSys.store.events := by
  obtain ⟨h1, h2, h3⟩ :=
    claim_C10 wSys 1 2 rfl (by decide) (by decide) (by decide)
  exact ⟨⟨by decide, rfl⟩, h1, h3 3 wItem3 (by decide) rfl⟩

end FieldKit
